/-
  Verification of the roster simulation engine of espn-api
  (espn_api/utils/advanced_simulator.py) against its specification.

  Shallow embedding conventions:
  * Python floats are modelled as rationals (ℚ); the claims under study are
    exact arithmetic identities, orderings and set/count invariants, none of
    which depends on rounding.
  * np.random sampling is modelled by an injected entropy stream `Rng`: each
    call that draws one random player score consumes the next value of the
    stream.  Every claim below is quantified over all streams, hence holds
    for every realisation of the randomness.
  * Python `list.sort(key=k, reverse=True)` is a stable descending sort; it
    is embedded as `List.insertionSort` with the relation
    `fun x y => k y ≤ k x`, which Mathlib proves stable — see the use of
    `pair_sublist_insertionSort` below.
  * Python `max(xs, key=k)` / `min(xs, key=k)` return the FIRST maximal /
    minimal element; they are embedded by a fold that replaces the current
    best only on a strict improvement.
  * Fallible Python code (IndexError / StopIteration) is embedded with
    `Option`.
-/
import Mathlib

namespace Espn

/-- Entropy stream for np.random: an infinite sequence of rationals together
with a cursor; one draw returns the value under the cursor and advances it. -/
structure Rng where
  stream : ℕ → ℚ
  idx : ℕ

/-- Draw one random value and advance the stream. -/
def Rng.draw (r : Rng) : ℚ × Rng :=
  (r.stream r.idx, ⟨r.stream, r.idx + 1⟩)

/-- A fantasy player, as the data provider exposes it (spec §3): identity,
position string, optional explicit lineup slot, projected and historical
averages, optional free-text injury status, ownership percentage. -/
structure Player where
  playerId : ℕ
  name : String
  position : String
  lineupSlot : Option String
  projected_avg_points : ℚ
  avg_points : ℚ
  injury_status : Option String
  percent_owned : ℚ
deriving DecidableEq, Repr

/-- `getattr(p, 'projected_avg_points', 0) or getattr(p, 'avg_points', 0)`:
the projected average when truthy (non-zero), else the historical average. -/
def pyValue (p : Player) : ℚ :=
  if p.projected_avg_points ≠ 0 then p.projected_avg_points else p.avg_points

/-- League settings consumed by the engine. -/
structure Settings where
  playoff_team_count : ℕ
deriving DecidableEq, Repr

/-- A team: id, name, win count, ordered roster, forward schedule.  Schedule
entries are opponent team ids (the engine also accepts team objects and
resolves them to the same league member, so ids model both branches). -/
structure Team where
  team_id : ℕ
  team_name : String
  wins : ℕ
  roster : List Player
  schedule : List ℕ
deriving DecidableEq, Repr

/-- The league as the engine reads it. -/
structure League where
  teams : List Team
  current_week : ℕ
  settings : Settings
deriving DecidableEq, Repr

/-- The simulator state the embedded methods read: the league, the configured
trial count, the GMM flag and the trained per-player states (player id ↦
season average), i.e. `player_model.player_states`. -/
structure AdvancedFantasySimulator where
  league : League
  num_simulations : ℕ
  use_gmm : Bool
  player_states : List (ℕ × ℚ)
deriving Repr

/-- Stable descending order on players by `pyValue`:
`available.sort(key=..., reverse=True)`. -/
def valueGe (x y : Player) : Prop := pyValue y ≤ pyValue x

instance : DecidableRel valueGe := fun x y =>
  inferInstanceAs (Decidable (pyValue y ≤ pyValue x))

instance : IsTotal Player valueGe := ⟨fun x y => le_total (pyValue y) (pyValue x)⟩

instance : IsTrans Player valueGe := ⟨fun _ _ _ h1 h2 => le_trans h2 h1⟩

/-- The inner helper `get_best(pos, count)` of `_get_optimal_lineup`: filter
the remaining pool to the position, sort it by value descending (stable),
take the first `count`, and remove the selected players (Python
`remaining.remove(p)` erases the first occurrence). -/
def get_best (pos : String) (count : ℕ) (remaining : List Player) :
    List Player × List Player :=
  let available := remaining.filter (fun p => p.position == pos)
  let sorted := List.insertionSort valueGe available
  let selected := sorted.take count
  (selected, selected.foldl (fun r p => r.erase p) remaining)

/-- `max(xs, key=...)`: the first element attaining the maximal value (Python
replaces the running best only on a strict improvement). -/
def pythonMaxByValue : List Player → Option Player
  | [] => none
  | x :: xs =>
    some (xs.foldl (fun best y => if pyValue best < pyValue y then y else best) x)

/-- Flex eligibility: `p.position in ['RB', 'WR', 'TE']`. -/
def flexEligible (p : Player) : Bool :=
  p.position == "RB" || p.position == "WR" || p.position == "TE"

/-- `_get_optimal_lineup`: greedy slot filling — 1 QB, 2 RB, 2 WR, 1 TE,
1 K, 1 D/ST, then one flex from the best remaining RB/WR/TE. -/
def get_optimal_lineup (roster : List Player) : List Player :=
  let s1 := get_best "QB" 1 roster
  let s2 := get_best "RB" 2 s1.2
  let s3 := get_best "WR" 2 s2.2
  let s4 := get_best "TE" 1 s3.2
  let s5 := get_best "K" 1 s4.2
  let s6 := get_best "D/ST" 1 s5.2
  let core := s1.1 ++ s2.1 ++ s3.1 ++ s4.1 ++ s5.1 ++ s6.1
  match pythonMaxByValue (s6.2.filter flexEligible) with
  | some flex => core ++ [flex]
  | none => core

/-- The starter filter of `simulate_roster_score`: players carrying an
explicit lineup slot that is none of 'BE', 'IR', ''. -/
def isExplicitStarter (p : Player) : Bool :=
  match p.lineupSlot with
  | none => false
  | some s => !(s == "BE" || s == "IR" || s == "")

/-- One sampled score for one starter.  In the source this is either a GMM
draw (`player_model.predict_performance(player, n_samples=1)[0]`) or a
`np.random.normal` fallback; both are random draws whose realised value the
entropy stream supplies, so a single stream draw embeds either branch. -/
def samplePlayerScore (_p : Player) (rng : Rng) : ℚ × Rng := rng.draw

/-- The starter determination of `simulate_roster_score`: the players with
an explicit meaningful lineup slot, or — when there are none — the optimal
lineup computed from the full roster. -/
def pickStarters (roster : List Player) : List Player :=
  let explicit := roster.filter isExplicitStarter
  if explicit.isEmpty then get_optimal_lineup roster else explicit

/-- `simulate_roster_score`: pick the starters (explicit slots if any,
else the optimal lineup), then for each starter draw one sampled score,
multiply it by the opponent defense rating, clip it at 0, and sum. -/
def simulate_roster_score (sim : AdvancedFantasySimulator) (team : Team)
    (opponent_defense_rating : ℚ) (rng : Rng) : ℚ × Rng :=
  (pickStarters team.roster).foldl
    (fun acc player =>
      let (predicted, rng1) := samplePlayerScore player acc.2
      let adjusted := predicted * opponent_defense_rating
      (acc.1 + max 0 adjusted, rng1))
    ((0 : ℚ), rng)

/-- The matchup result fields the claims under study concern: the two win
probabilities (percent) and the two lists of per-trial sampled scores.  The
remaining summary fields of the source dict (means, standard deviations,
percentile ranges) are descriptive statistics of these two lists and are the
subject of no claim. -/
structure MatchupResult where
  team1_win_probability : ℚ
  team2_win_probability : ℚ
  team1_scores : List ℚ
  team2_scores : List ℚ
deriving Repr

/-- The trial loop of `simulate_matchup`: per trial draw a score for each
team (team1 first), record both, and count the trials won strictly by
team1.  Returns (team1_wins, team1_scores, team2_scores, rng). -/
def matchupLoop (sim : AdvancedFantasySimulator) (team1 team2 : Team) :
    ℕ → Rng → ℕ × List ℚ × List ℚ × Rng
  | 0, rng => (0, [], [], rng)
  | n + 1, rng =>
    let (s1, r1) := simulate_roster_score sim team1 1 rng
    let (s2, r2) := simulate_roster_score sim team2 1 r1
    let (w, l1, l2, r3) := matchupLoop sim team1 team2 n r2
    ((if s2 < s1 then 1 else 0) + w, s1 :: l1, s2 :: l2, r3)

/-- `simulate_matchup(team1, team2, n_simulations)`: run the trial loop and
report `team1_wins / n * 100` and `(n - team1_wins) / n * 100`. -/
def simulate_matchup (sim : AdvancedFantasySimulator) (team1 team2 : Team)
    (n_simulations : ℕ) (rng : Rng) : MatchupResult × Rng :=
  let (w, l1, l2, r) := matchupLoop sim team1 team2 n_simulations rng
  ({ team1_win_probability := (w : ℚ) / n_simulations * 100
     team2_win_probability := ((n_simulations : ℚ) - w) / n_simulations * 100
     team1_scores := l1
     team2_scores := l2 }, r)

/-- Win count of team1 over the recorded paired scores: the number of trials
in which team1's sampled score strictly exceeds team2's. -/
def strictWinCount (l1 l2 : List ℚ) : ℕ :=
  (l1.zip l2).countP (fun p => p.2 < p.1)

/-! ### Trade analysis -/

/-- Per-player value used by `_calculate_roster_value`: the trained GMM
state's season average when the GMM is enabled and a state exists for the
player, else the projected-or-historical fallback. -/
def rosterPlayerValue (sim : AdvancedFantasySimulator) (p : Player) : ℚ :=
  match sim.player_states.lookup p.playerId with
  | some season_avg => if sim.use_gmm then season_avg else pyValue p
  | none => pyValue p

/-- `_calculate_roster_value`: optimal-lineup starters at full value plus the
remaining (bench) players each at 30 percent, accumulated exactly as the two
source loops do. -/
def calculate_roster_value (sim : AdvancedFantasySimulator)
    (roster : List Player) : ℚ :=
  let starters := get_optimal_lineup roster
  let starter_value :=
    starters.foldl (fun acc p => acc + rosterPlayerValue sim p) 0
  let bench := roster.filter (fun p => !(starters.contains p))
  let bench_value :=
    bench.foldl (fun acc p => acc + rosterPlayerValue sim p * (3 / 10)) 0
  starter_value + bench_value

/-- `_calculate_team_value`. -/
def calculate_team_value (sim : AdvancedFantasySimulator) (team : Team) : ℚ :=
  calculate_roster_value sim team.roster

/-- The trade analysis record returned by `analyze_trade`. -/
structure TradeResult where
  my_value_change : ℚ
  their_value_change : ℚ
  asymmetric_advantage : Bool
  advantage_margin : ℚ
  projected_points_added_per_week : ℚ
  total_projected_points_added : ℚ
  recommendation : String
  confidence : ℚ
deriving Repr

/-- `analyze_trade(my_team, other_team, my_players, their_players,
weeks_remaining)`: post-trade rosters swap the named players; values are
compared post minus pre; recommendation is ACCEPT iff the initiator gains;
confidence is `min(100, |change| / (current/10))` when the current value is
positive, else 0. -/
def analyze_trade (sim : AdvancedFantasySimulator) (my_team other_team : Team)
    (my_players their_players : List Player) (weeks_remaining : ℤ) :
    TradeResult :=
  let my_current_value := calculate_team_value sim my_team
  let their_current_value := calculate_team_value sim other_team
  let my_roster_after :=
    my_team.roster.filter (fun p => !(my_players.contains p)) ++ their_players
  let their_roster_after :=
    other_team.roster.filter (fun p => !(their_players.contains p)) ++ my_players
  let my_value_after := calculate_roster_value sim my_roster_after
  let their_value_after := calculate_roster_value sim their_roster_after
  let my_value_change := my_value_after - my_current_value
  let their_value_change := their_value_after - their_current_value
  { my_value_change := my_value_change
    their_value_change := their_value_change
    asymmetric_advantage := decide (their_value_change < my_value_change)
    advantage_margin := my_value_change - their_value_change
    projected_points_added_per_week :=
      if 0 < weeks_remaining then my_value_change / weeks_remaining else 0
    total_projected_points_added := my_value_change
    recommendation := if 0 < my_value_change then "ACCEPT" else "REJECT"
    confidence :=
      if 0 < my_current_value then
        min 100 (|my_value_change| / (my_current_value / 10))
      else 0 }

/-! ### Free agent recommendations -/

/-- Modelled from the spec: the case-insensitive available-status test of
`recommend_free_agents` (the `exclude_injured` filter is present in this
repository's tests and verification script but its body is absent from the
packaged sources).  A player is available when the injury status is unset,
empty, or an explicitly-active status (ACTIVE / NORMAL) up to case;
everything else (OUT, QUESTIONABLE, DOUBTFUL, INJURY_RESERVE, SUSPENSION,
...) is unavailable. -/
def statusAvailable : Option String → Bool
  | none => true
  | some s => s.toUpper == "" || s.toUpper == "ACTIVE" || s.toUpper == "NORMAL"

/-- `if positions and fa.position not in positions`: the position filter
skips a candidate only when a non-empty position list excludes it. -/
def positionExcluded (positions : Option (List String)) (pos : String) : Bool :=
  match positions with
  | none => false
  | some ps => !ps.isEmpty && !(ps.contains pos)

/-- `min(xs, key=...)`: the first element attaining the minimal value. -/
def pythonMinByValue : List Player → Option Player
  | [] => none
  | x :: xs =>
    some (xs.foldl (fun best y => if pyValue y < pyValue best then y else best) x)

/-- One free agent recommendation record. -/
structure Recommendation where
  player : Player
  position : String
  value_added : ℚ
  drop_candidate : String
  fa_projected_avg : ℚ
  drop_projected_avg : ℚ
  priority : String
  ownership_pct : ℚ
deriving Repr

/-- The weakest same-position incumbent on the roster (`min(position_players,
key=value)`), `none` when the candidate's position is new to the roster. -/
def faDropCandidate (my_team : Team) (fa : Player) : Option Player :=
  pythonMinByValue
    (my_team.roster.filter (fun p => p.position == fa.position))

/-- The incumbent's value (0 when the position is new). -/
def faDropValue (my_team : Team) (fa : Player) : ℚ :=
  match faDropCandidate my_team fa with
  | none => 0
  | some d => pyValue d

/-- The candidate's value added: candidate minus incumbent at full weight,
or the full candidate value at half priority weight when the position is
new. -/
def faValueAdded (my_team : Team) (fa : Player) : ℚ :=
  match faDropCandidate my_team fa with
  | none => pyValue fa * (1 / 2)
  | some _ => (pyValue fa - faDropValue my_team fa) * 1

/-- The per-candidate body of the `recommend_free_agents` loop: position
filter, injury filter (modelled from the spec, applied when
`exclude_injured` is set), weakest same-position incumbent as drop
candidate (half priority weight when the position is new), value added,
and the record — or `none` when the candidate is skipped or adds no
positive value. -/
def mkRecommendation (my_team : Team) (positions : Option (List String))
    (exclude_injured : Bool) (fa : Player) : Option Recommendation :=
  if positionExcluded positions fa.position then none
  else if exclude_injured && !statusAvailable fa.injury_status then none
  else if 0 < faValueAdded my_team fa then
    some
      { player := fa
        position := fa.position
        value_added := faValueAdded my_team fa
        drop_candidate :=
          match faDropCandidate my_team fa with
          | none => "None (roster expansion)"
          | some d => d.name
        fa_projected_avg := pyValue fa
        drop_projected_avg := faDropValue my_team fa
        priority :=
          if 3 < faValueAdded my_team fa then "HIGH"
          else if 1 < faValueAdded my_team fa then "MEDIUM" else "LOW"
        ownership_pct := fa.percent_owned }
  else none

/-- Stable descending order on recommendations by value added. -/
def recValueGe (x y : Recommendation) : Prop := y.value_added ≤ x.value_added

instance : DecidableRel recValueGe := fun x y =>
  inferInstanceAs (Decidable (y.value_added ≤ x.value_added))

/-- `recommend_free_agents(my_team, free_agents, top_n, positions,
exclude_injured)`: build one optional record per candidate in order, sort
by value added descending (stable), truncate to `top_n`. -/
def recommend_free_agents (my_team : Team) (free_agents : List Player)
    (top_n : ℕ) (positions : Option (List String)) (exclude_injured : Bool) :
    List Recommendation :=
  let recommendations :=
    free_agents.filterMap (mkRecommendation my_team positions exclude_injured)
  (List.insertionSort recValueGe recommendations).take top_n

/-! ### Playoff bracket -/

/-- `next(t for t in league.teams if t.team_id == tid)`: the first league
team with the given id; `none` embeds the StopIteration error. -/
def lookupTeam (lg : League) (tid : ℕ) : Option Team :=
  lg.teams.find? (fun t => t.team_id == tid)

/-- One round of `_simulate_playoff_bracket`: pair the surviving ids two at
a time (1v2, 3v4, ...); each pair plays one game — the first id advances
iff its sampled score strictly exceeds the second's; an unpaired trailing
id advances without playing.  `none` embeds the id-lookup error. -/
def bracketRound (sim : AdvancedFantasySimulator) :
    List ℕ → Rng → Option (List ℕ × Rng)
  | [], rng => some ([], rng)
  | [t], rng => some ([t], rng)
  | t1 :: t2 :: rest, rng =>
    match lookupTeam sim.league t1, lookupTeam sim.league t2 with
    | some tm1, some tm2 =>
      let (s1, r1) := simulate_roster_score sim tm1 1 rng
      let (s2, r2) := simulate_roster_score sim tm2 1 r1
      let winner := if s2 < s1 then t1 else t2
      (bracketRound sim rest r2).map (fun wr => (winner :: wr.1, wr.2))
    | _, _ => none

/-- `_simulate_playoff_bracket`: play rounds while more than one id
survives, then return the survivor (`teams[0]`; `none` embeds the
IndexError on an empty list and the lookup error inside a round).  The
source's while loop terminates because every round strictly shrinks a
field of two or more; the `hlt` guard below only makes that measure
explicit for the recursion — the claim C5 theorem proves the guard (and
the lookup) never fails on league team ids, so the `none` branches add no
behaviour of their own. -/
def simulate_playoff_bracket (sim : AdvancedFantasySimulator)
    (playoff_team_ids : List ℕ) (rng : Rng) : Option (ℕ × Rng) :=
  if h : playoff_team_ids.length ≤ 1 then
    playoff_team_ids.head?.map (fun t => (t, rng))
  else
    match bracketRound sim playoff_team_ids rng with
    | none => none
    | some (ws, r) =>
      if hlt : ws.length < playoff_team_ids.length then
        simulate_playoff_bracket sim ws r
      else none
termination_by playoff_team_ids.length

/-! ### Season simulation -/

/-- `season_wins[tid] += 1`. -/
def bumpWins (tid : ℕ) (sw : List (ℕ × ℕ)) : List (ℕ × ℕ) :=
  sw.map (fun e => if e.1 == tid then (e.1, e.2 + 1) else e)

/-- One entry of one team's remaining schedule inside a season trial:
resolve the opponent id; when it resolves to a different team, draw one
score for each side and credit the scheduling team with a win iff its
score strictly exceeds the opponent's. -/
def playScheduleEntry (sim : AdvancedFantasySimulator) (team : Team)
    (acc : List (ℕ × ℕ) × Rng) (opponent : ℕ) : List (ℕ × ℕ) × Rng :=
  match lookupTeam sim.league opponent with
  | none => acc
  | some opponent_team =>
    if opponent_team.team_id == team.team_id then acc
    else
      let (team_score, r1) := simulate_roster_score sim team 1 acc.2
      let (opp_score, r2) := simulate_roster_score sim opponent_team 1 r1
      (if opp_score < team_score then bumpWins team.team_id acc.1 else acc.1, r2)

/-- One season trial of `simulate_season_rest_of_season`: start from the
recorded wins (`{team.team_id: team.wins}` in league order) and walk, for
every team, every entry of `team.schedule[current_week:]`. -/
def seasonTrial (sim : AdvancedFantasySimulator) (rng : Rng) :
    List (ℕ × ℕ) × Rng :=
  sim.league.teams.foldl
    (fun acc team =>
      (team.schedule.drop sim.league.current_week).foldl
        (playScheduleEntry sim team) acc)
    (sim.league.teams.map (fun t => (t.team_id, t.wins)), rng)

/-- Stable descending order on (team id, wins) pairs by wins:
`sorted(season_wins.items(), key=lambda x: x[1], reverse=True)`. -/
def winsGe (x y : ℕ × ℕ) : Prop := y.2 ≤ x.2

instance : DecidableRel winsGe := fun x y =>
  inferInstanceAs (Decidable (y.2 ≤ x.2))

/-- The playoff qualifiers of one trial: the first `playoff_team_count` ids
of the win table sorted by wins descending. -/
def playoffTeams (sim : AdvancedFantasySimulator) (sw : List (ℕ × ℕ)) :
    List ℕ :=
  ((List.insertionSort winsGe sw).take
    sim.league.settings.playoff_team_count).map Prod.fst

/-- One full trial: season wins, playoff qualifiers, and — when at least two
teams qualify — the bracket champion. -/
def seasonTrialFull (sim : AdvancedFantasySimulator) (rng : Rng) :
    List (ℕ × ℕ) × List ℕ × Option ℕ × Rng :=
  let (sw, r1) := seasonTrial sim rng
  let playoff := playoffTeams sim sw
  if 2 ≤ playoff.length then
    match simulate_playoff_bracket sim playoff r1 with
    | some (c, r2) => (sw, playoff, some c, r2)
    | none => (sw, playoff, none, r1)
  else (sw, playoff, none, r1)

/-- The running per-team tallies of `simulate_season_rest_of_season`. -/
structure SeasonProjection where
  current_wins : ℕ
  projected_wins : ℚ
  playoff_odds : ℚ
  championship_odds : ℚ
deriving Repr

/-- Fold one trial into the result table: add the trial's win total, one
playoff tick for each qualifier, and one championship tick for the
champion.  (The source walks the trial's dicts by key; since the keys of
`results`, `season_wins` and `playoff_teams` are all drawn from the same
set of team ids, the per-entry lookup below performs the same updates.) -/
def addTrial (results : List (ℕ × SeasonProjection)) (sw : List (ℕ × ℕ))
    (playoff : List ℕ) (champ : Option ℕ) : List (ℕ × SeasonProjection) :=
  results.map (fun e =>
    ( e.1,
      { e.2 with
        projected_wins := e.2.projected_wins +
          (match sw.lookup e.1 with
           | some w => (w : ℚ)
           | none => 0)
        playoff_odds := e.2.playoff_odds +
          (if playoff.contains e.1 then 1 else 0)
        championship_odds := e.2.championship_odds +
          (if champ == some e.1 then 1 else 0) } ))

/-- The trial loop of `simulate_season_rest_of_season`. -/
def seasonLoop (sim : AdvancedFantasySimulator) :
    ℕ → List (ℕ × SeasonProjection) × Rng → List (ℕ × SeasonProjection) × Rng
  | 0, acc => acc
  | n + 1, acc =>
    let (sw, playoff, champ, r) := seasonTrialFull sim acc.2
    seasonLoop sim n (addTrial acc.1 sw playoff champ, r)

/-- `simulate_season_rest_of_season`: run `num_simulations` full trials from
the zeroed table, then convert the accumulated tallies to an average win
count and playoff / championship percentages. -/
def simulate_season_rest_of_season (sim : AdvancedFantasySimulator)
    (rng : Rng) : List (ℕ × SeasonProjection) :=
  let init := sim.league.teams.map (fun t =>
    (t.team_id,
      { current_wins := t.wins
        projected_wins := 0
        playoff_odds := 0
        championship_odds := 0 : SeasonProjection }))
  let acc := seasonLoop sim sim.num_simulations (init, rng)
  acc.1.map (fun e =>
    ( e.1,
      { e.2 with
        projected_wins := e.2.projected_wins / sim.num_simulations
        playoff_odds := e.2.playoff_odds / sim.num_simulations * 100
        championship_odds :=
          e.2.championship_odds / sim.num_simulations * 100 } ))

/-- The team loop of one season trial, factored for reasoning: fold the
per-team schedule walks over an explicit list of teams.
`seasonTrial sim rng` is definitionally
`seasonFold sim sim.league.teams (initial table, rng)`. -/
def seasonFold (sim : AdvancedFantasySimulator) (ts : List Team)
    (acc : List (ℕ × ℕ) × Rng) : List (ℕ × ℕ) × Rng :=
  ts.foldl
    (fun a team =>
      (team.schedule.drop sim.league.current_week).foldl
        (playScheduleEntry sim team) a)
    acc

/-- The slot-filling phase of `_get_optimal_lineup`, factored for reasoning:
process a list of (position, count) slots left to right, accumulating the
selections and the shrinking pool.  The six fixed slot calls of
`get_optimal_lineup` are an unrolling of this fold. -/
def applySlots : List (String × ℕ) → List Player →
    List Player × List Player
  | [], rem => ([], rem)
  | (pos, c) :: rest, rem =>
    let s := get_best pos c rem
    let r := applySlots rest s.2
    (s.1 ++ r.1, r.2)

/-- The six slots of the standard lineup. -/
def standardSlots : List (String × ℕ) :=
  [("QB", 1), ("RB", 2), ("WR", 2), ("TE", 1), ("K", 1), ("D/ST", 1)]

/-! ### Concrete fixtures used by witnesses and counterexamples -/

/-- The all-zeroes entropy stream. -/
def rng0 : Rng := ⟨fun _ => 0, 0⟩

/-- An entropy stream alternating 10, 0, 10, 0, ... -/
def rngAlt : Rng := ⟨fun n => if n % 2 == 0 then 10 else 0, 0⟩

/-- A concrete player. -/
def mkPlayer (id : ℕ) (pos : String) (slot : Option String) (proj avg : ℚ)
    (status : Option String) : Player :=
  { playerId := id
    name := "P"
    position := pos
    lineupSlot := slot
    projected_avg_points := proj
    avg_points := avg
    injury_status := status
    percent_owned := 0 }

/-- A concrete team. -/
def mkTeam (id : ℕ) (wins : ℕ) (roster : List Player) (schedule : List ℕ) :
    Team :=
  { team_id := id
    team_name := "T"
    wins := wins
    roster := roster
    schedule := schedule }

/-- A team with an empty roster. -/
def emptyTeam (id : ℕ) : Team := mkTeam id 0 [] []

/-- A minimal simulator over a given league (heuristic mode, no trained
states). -/
def mkSim (lg : League) (n : ℕ) : AdvancedFantasySimulator :=
  { league := lg, num_simulations := n, use_gmm := false, player_states := [] }

/-- Three empty-rostered teams, for bracket witnesses. -/
def lg3 : League :=
  { teams := [emptyTeam 1, emptyTeam 2, emptyTeam 3]
    current_week := 0
    settings := { playoff_team_count := 2 } }

/-- Two teams, one starter each, scheduled against each other once; used by
the claim C3 counterexample.  Both starters carry an explicit non-bench
lineup slot, so `simulate_roster_score` draws exactly one sample per team. -/
def lgPair : League :=
  { teams :=
      [ mkTeam 1 0 [mkPlayer 11 "RB" (some "RB") 10 10 none] [2]
      , mkTeam 2 0 [mkPlayer 22 "RB" (some "RB") 10 10 none] [1] ]
    current_week := 0
    settings := { playoff_team_count := 2 } }

/-- Total wins in a season-trial win table. -/
def sumWins (sw : List (ℕ × ℕ)) : ℕ := (sw.map Prod.snd).sum

/-! ### Theorems -/

lemma matchupLoop_spec (sim : AdvancedFantasySimulator) (team1 team2 : Team) :
    ∀ (n : ℕ) (rng : Rng),
      (matchupLoop sim team1 team2 n rng).1 =
        strictWinCount (matchupLoop sim team1 team2 n rng).2.1
          (matchupLoop sim team1 team2 n rng).2.2.1 ∧
      (matchupLoop sim team1 team2 n rng).2.1.length = n ∧
      (matchupLoop sim team1 team2 n rng).1 ≤ n := by
  intro n
  induction n with
  | zero => intro rng; simp [matchupLoop, strictWinCount]
  | succ n ih =>
    intro rng
    have h := ih (simulate_roster_score sim team2 1
      (simulate_roster_score sim team1 1 rng).2).2
    simp only [matchupLoop, strictWinCount, List.zip_cons_cons, List.countP_cons] at *
    constructor
    · rw [h.1]; by_cases hw : (simulate_roster_score sim team2 1
        (simulate_roster_score sim team1 1 rng).2).1 <
          (simulate_roster_score sim team1 1 rng).1 <;>
        simp [hw, Nat.add_comm]
    · refine ⟨by simp [h.2.1], ?_⟩
      have := h.2.2
      split <;> omega

/-- C1: for every matchup simulation with at least one trial, team1's win
probability is the count of trials where team1's sampled score strictly
exceeds team2's, divided by the trial count, times 100; team2's is the
complement; and the two percentages sum to exactly 100. -/
theorem c1_matchup_probabilities (sim : AdvancedFantasySimulator)
    (team1 team2 : Team) (n : ℕ) (rng : Rng) (hn : 1 ≤ n) :
    ((simulate_matchup sim team1 team2 n rng).1.team1_win_probability =
      (strictWinCount (simulate_matchup sim team1 team2 n rng).1.team1_scores
        (simulate_matchup sim team1 team2 n rng).1.team2_scores : ℚ)
        / n * 100) ∧
    ((simulate_matchup sim team1 team2 n rng).1.team2_win_probability =
      100 - (simulate_matchup sim team1 team2 n rng).1.team1_win_probability) ∧
    ((simulate_matchup sim team1 team2 n rng).1.team1_win_probability +
      (simulate_matchup sim team1 team2 n rng).1.team2_win_probability =
        100) := by
  have hn0 : (n : ℚ) ≠ 0 := by positivity
  have hspec := matchupLoop_spec sim team1 team2 n rng
  have hres : (simulate_matchup sim team1 team2 n rng).1 =
      { team1_win_probability :=
          ((matchupLoop sim team1 team2 n rng).1 : ℚ) / n * 100
        team2_win_probability :=
          ((n : ℚ) - (matchupLoop sim team1 team2 n rng).1) / n * 100
        team1_scores := (matchupLoop sim team1 team2 n rng).2.1
        team2_scores := (matchupLoop sim team1 team2 n rng).2.2.1 } := rfl
  rw [hres]
  refine ⟨?_, ?_, ?_⟩
  · simp only []
    rw [← hspec.1]
  · simp only []
    field_simp
    ring
  · simp only []
    field_simp
    ring

/-- Witness for C1 at two trials over the all-zero stream: both score draws
tie in every trial, so team1 wins no trial and team2 is credited with the
complement. -/
theorem c1_matchup_probabilities_witness :
    (1 ≤ 2) ∧
    ((simulate_matchup (mkSim lg3 2) (emptyTeam 1) (emptyTeam 2) 2
        rng0).1.team1_win_probability +
      (simulate_matchup (mkSim lg3 2) (emptyTeam 1) (emptyTeam 2) 2
        rng0).1.team2_win_probability = 100) :=
  ⟨by norm_num,
    (c1_matchup_probabilities (mkSim lg3 2) (emptyTeam 1) (emptyTeam 2) 2 rng0
      (by norm_num)).2.2⟩

/-- C4: a simulated roster score is a sum of per-starter terms each clipped
at zero after the defense multiplier, hence is nonnegative for every team,
rating and entropy stream; and a team with an empty roster scores exactly 0
(no starters, empty sum) rather than raising. -/
theorem c4_roster_score_nonneg (sim : AdvancedFantasySimulator) (team : Team)
    (rating : ℚ) (rng : Rng) :
    0 ≤ (simulate_roster_score sim team rating rng).1 ∧
    (team.roster = [] → (simulate_roster_score sim team rating rng).1 = 0) := by
  have key : ∀ (l : List Player) (acc : ℚ × Rng), 0 ≤ acc.1 →
      0 ≤ (l.foldl (fun acc player =>
        let (predicted, rng1) := samplePlayerScore player acc.2
        let adjusted := predicted * rating
        (acc.1 + max 0 adjusted, rng1)) acc).1 := by
    intro l
    induction l with
    | nil => intro acc h; exact h
    | cons p t ih =>
      intro acc h
      exact ih _ (by
        have : (0 : ℚ) ≤ max 0 (((samplePlayerScore p acc.2).1) * rating) :=
          le_max_left _ _
        simpa using add_nonneg h this)
  constructor
  · exact key _ _ le_rfl
  · intro h
    show (List.foldl _ ((0 : ℚ), rng) (pickStarters team.roster)).1 = 0
    rw [h]
    rfl

/-- Witness for C4 on an empty-rostered team: the score is 0 and 0 ≤ 0. -/
theorem c4_roster_score_nonneg_witness :
    (simulate_roster_score (mkSim lg3 1) (emptyTeam 7) 1 rng0).1 = 0 :=
  (c4_roster_score_nonneg (mkSim lg3 1) (emptyTeam 7) 1 rng0).2 rfl

lemma get_optimal_lineup_nil : get_optimal_lineup [] = [] := rfl

lemma calculate_roster_value_nil (sim : AdvancedFantasySimulator) :
    calculate_roster_value sim [] = 0 := by
  simp [calculate_roster_value, get_optimal_lineup_nil]

lemma calculate_team_value_emptyTeam (sim : AdvancedFantasySimulator)
    (id : ℕ) : calculate_team_value sim (emptyTeam id) = 0 := by
  simp [calculate_team_value, emptyTeam, mkTeam, calculate_roster_value_nil]

lemma foldl_add_eq_sum (f : Player → ℚ) :
    ∀ (l : List Player) (a : ℚ),
      l.foldl (fun acc p => acc + f p) a = a + (l.map f).sum := by
  intro l
  induction l with
  | nil => intro a; simp
  | cons p t ih => intro a; simp [ih, add_assoc]

/-- C6: the trade recommendation is ACCEPT exactly when the initiator's
value change is strictly positive; the confidence never exceeds 100 and
equals `min 100 (|change| / (current/10))` when the initiator's current
roster value is positive, else 0. -/
theorem c6_trade_recommendation (sim : AdvancedFantasySimulator)
    (my_team other_team : Team) (my_players their_players : List Player)
    (w : ℤ) :
    ((analyze_trade sim my_team other_team my_players their_players
        w).recommendation = "ACCEPT" ↔
      0 < (analyze_trade sim my_team other_team my_players their_players
        w).my_value_change) ∧
    (analyze_trade sim my_team other_team my_players their_players
        w).confidence ≤ 100 ∧
    (0 < calculate_team_value sim my_team →
      (analyze_trade sim my_team other_team my_players their_players
          w).confidence =
        min 100
          ((|(analyze_trade sim my_team other_team my_players their_players
              w).my_value_change|) /
            (calculate_team_value sim my_team / 10))) ∧
    (calculate_team_value sim my_team ≤ 0 →
      (analyze_trade sim my_team other_team my_players their_players
          w).confidence = 0) := by
  have hrec : (analyze_trade sim my_team other_team my_players their_players
      w).recommendation =
      (if 0 < (analyze_trade sim my_team other_team my_players their_players
        w).my_value_change then "ACCEPT" else "REJECT") := rfl
  have hconf : (analyze_trade sim my_team other_team my_players their_players
      w).confidence =
      (if 0 < calculate_team_value sim my_team then
        min 100
          ((|(analyze_trade sim my_team other_team my_players their_players
              w).my_value_change|) /
            (calculate_team_value sim my_team / 10))
       else 0) := rfl
  refine ⟨?_, ?_, ?_, ?_⟩
  · rw [hrec]
    constructor
    · intro h
      by_contra hneg
      rw [if_neg hneg] at h
      exact absurd h (by decide)
    · intro h; rw [if_pos h]
  · rw [hconf]
    by_cases h : 0 < calculate_team_value sim my_team
    · rw [if_pos h]; exact min_le_left _ _
    · rw [if_neg h]; norm_num
  · intro h; rw [hconf, if_pos h]
  · intro h; rw [hconf, if_neg (by exact absurd · (not_lt.mpr h))]

/-- Witness for C6 on a trade between two empty-rostered teams: the current
value is 0, not positive, so the confidence is 0. -/
theorem c6_trade_recommendation_witness :
    calculate_team_value (mkSim lg3 1) (emptyTeam 1) ≤ 0 ∧
    (analyze_trade (mkSim lg3 1) (emptyTeam 1) (emptyTeam 2) [] []
      10).confidence = 0 :=
  ⟨le_of_eq (calculate_team_value_emptyTeam _ 1),
    (c6_trade_recommendation (mkSim lg3 1) (emptyTeam 1) (emptyTeam 2) [] []
      10).2.2.2 (le_of_eq (calculate_team_value_emptyTeam _ 1))⟩

/-- Counterexample to C7 as stated: between two empty-rostered teams the
value change is 0, so both per-week rates are 0 and their ratio is 0 (the
0/0 of the totalised rational division), not `w2 / w1 = 2`.  The claimed
ratio identity therefore fails when the fixed value change is zero. -/
theorem c7_counterexample :
    ¬ ((analyze_trade (mkSim lg3 1) (emptyTeam 1) (emptyTeam 2) [] []
          1).projected_points_added_per_week /
        (analyze_trade (mkSim lg3 1) (emptyTeam 1) (emptyTeam 2) [] []
          2).projected_points_added_per_week = (2 : ℚ) / 1) := by
  have hchange : ∀ w : ℤ,
      (analyze_trade (mkSim lg3 1) (emptyTeam 1) (emptyTeam 2) [] []
        w).my_value_change = 0 := by
    intro w
    show calculate_roster_value _ _ - calculate_team_value _ _ = 0
    simp [calculate_team_value, emptyTeam, mkTeam, calculate_roster_value_nil]
  have hrate : ∀ w : ℤ,
      (analyze_trade (mkSim lg3 1) (emptyTeam 1) (emptyTeam 2) [] []
        w).projected_points_added_per_week =
        (if 0 < w then
          (analyze_trade (mkSim lg3 1) (emptyTeam 1) (emptyTeam 2) [] []
            w).my_value_change / (w : ℚ) else 0) := fun _ => rfl
  rw [hrate 1, hrate 2, hchange 1, hchange 2]
  norm_num

/-- C7 as amended: the per-week rate is the value change over the weeks
remaining when positive and 0 when zero; and for a fixed NONZERO value
change and positive weeks-remaining `w1 < w2`, the ratio of the per-week
rates equals `w2 / w1` (for a zero value change both rates vanish and the
ratio is degenerate — see the counterexample). -/
theorem c7_per_week_rate (sim : AdvancedFantasySimulator)
    (my_team other_team : Team) (my_players their_players : List Player)
    (w w1 w2 : ℤ) (hw1 : 0 < w1) (h12 : w1 < w2)
    (hchange : (analyze_trade sim my_team other_team my_players their_players
      w1).my_value_change ≠ 0) :
    ((0 < w →
      (analyze_trade sim my_team other_team my_players their_players
          w).projected_points_added_per_week =
        (analyze_trade sim my_team other_team my_players their_players
          w).my_value_change / (w : ℚ)) ∧
     (w = 0 →
      (analyze_trade sim my_team other_team my_players their_players
          w).projected_points_added_per_week = 0)) ∧
    (analyze_trade sim my_team other_team my_players their_players
        w1).projected_points_added_per_week /
      (analyze_trade sim my_team other_team my_players their_players
        w2).projected_points_added_per_week = (w2 : ℚ) / (w1 : ℚ) := by
  have hrate : ∀ v : ℤ,
      (analyze_trade sim my_team other_team my_players their_players
        v).projected_points_added_per_week =
        (if 0 < v then
          (analyze_trade sim my_team other_team my_players their_players
            v).my_value_change / (v : ℚ) else 0) := fun _ => rfl
  have hsame : ∀ v v' : ℤ,
      (analyze_trade sim my_team other_team my_players their_players
        v).my_value_change =
      (analyze_trade sim my_team other_team my_players their_players
        v').my_value_change := fun _ _ => rfl
  refine ⟨⟨fun h => by rw [hrate w, if_pos h], fun h => by
    rw [hrate w, h]; norm_num⟩, ?_⟩
  have hw2 : 0 < w2 := lt_trans hw1 h12
  rw [hrate w1, hrate w2, if_pos hw1, if_pos hw2, ← hsame w1 w2]
  have hq1 : ((w1 : ℚ)) ≠ 0 := by
    exact_mod_cast ne_of_gt (by exact_mod_cast hw1)
  have hq2 : ((w2 : ℚ)) ≠ 0 := by
    exact_mod_cast ne_of_gt (by exact_mod_cast hw2)
  field_simp
  ring

/-- Witness for C7 as amended: trading one 5-point player into an empty
roster changes the initiator's value by 5 ≠ 0, and the per-week rates at 1
and 2 weeks remaining sit in ratio 2/1. -/
theorem c7_per_week_rate_witness :
    ((0 : ℤ) < 1) ∧ ((1 : ℤ) < 2) ∧
    ((analyze_trade (mkSim lg3 1) (emptyTeam 1) (emptyTeam 2) []
        [mkPlayer 5 "RB" none 5 5 none] 1).my_value_change ≠ 0) ∧
    ((analyze_trade (mkSim lg3 1) (emptyTeam 1) (emptyTeam 2) []
        [mkPlayer 5 "RB" none 5 5 none] 1).projected_points_added_per_week /
      (analyze_trade (mkSim lg3 1) (emptyTeam 1) (emptyTeam 2) []
        [mkPlayer 5 "RB" none 5 5 none] 2).projected_points_added_per_week =
        ((2 : ℤ) : ℚ) / ((1 : ℤ) : ℚ)) := by
  have hchange : (analyze_trade (mkSim lg3 1) (emptyTeam 1) (emptyTeam 2) []
      [mkPlayer 5 "RB" none 5 5 none] 1).my_value_change = 5 := by
    show calculate_roster_value _ _ - calculate_team_value _ _ = 5
    rw [calculate_team_value_emptyTeam]
    show calculate_roster_value _
      ((emptyTeam 1).roster.filter _ ++ [mkPlayer 5 "RB" none 5 5 none]) - 0 = 5
    norm_num [calculate_roster_value, emptyTeam, mkTeam, mkPlayer,
      get_optimal_lineup, get_best, pythonMaxByValue, flexEligible, pyValue,
      rosterPlayerValue, mkSim, List.insertionSort, List.orderedInsert]
  exact ⟨by norm_num, by norm_num, by rw [hchange]; norm_num,
    (c7_per_week_rate (mkSim lg3 1) (emptyTeam 1) (emptyTeam 2) []
      [mkPlayer 5 "RB" none 5 5 none] 0 1 2 (by norm_num) (by norm_num)
      (by rw [hchange]; norm_num)).2⟩

/-- C8: the roster value is the sum of the per-player values of the
optimal-lineup starters plus 0.3 times the sum of the values of the
remaining (bench) players; and for an untrained player the per-player
value falls back from the projected average (when non-zero) to the
historical average. -/
theorem c8_roster_value (sim : AdvancedFantasySimulator)
    (roster : List Player) :
    (calculate_roster_value sim roster =
      ((get_optimal_lineup roster).map (rosterPlayerValue sim)).sum +
        (3 / 10) *
          ((roster.filter
              (fun p => !((get_optimal_lineup roster).contains p))).map
            (rosterPlayerValue sim)).sum) ∧
    (∀ p : Player, sim.player_states.lookup p.playerId = none →
      rosterPlayerValue sim p =
        (if p.projected_avg_points ≠ 0 then p.projected_avg_points
         else p.avg_points)) := by
  constructor
  · show (get_optimal_lineup roster).foldl _ 0 +
      (roster.filter _).foldl _ 0 = _
    rw [foldl_add_eq_sum, foldl_add_eq_sum (fun p =>
      rosterPlayerValue sim p * (3 / 10))]
    have hmap : ∀ l : List Player,
        (l.map (fun p => rosterPlayerValue sim p * (3 / 10))).sum =
          (3 / 10) * (l.map (rosterPlayerValue sim)).sum := by
      intro l
      induction l with
      | nil => simp
      | cons p t ih => simp [ih]; ring
    rw [hmap]
    ring
  · intro p hp
    show (match sim.player_states.lookup p.playerId with
      | some season_avg => if sim.use_gmm then season_avg else pyValue p
      | none => pyValue p) = _
    rw [hp]
    rfl

/-- Witness for C8: a two-RB roster puts the stronger RBs in the lineup and
the computed value matches the starters-plus-30-percent-bench formula; the
untrained 9-point player's value falls back to its projected average. -/
theorem c8_roster_value_witness :
    (calculate_roster_value (mkSim lg3 1)
        [mkPlayer 1 "RB" none 9 4 none, mkPlayer 2 "RB" none 7 3 none] =
      ((get_optimal_lineup
          [mkPlayer 1 "RB" none 9 4 none, mkPlayer 2 "RB" none 7 3 none]).map
        (rosterPlayerValue (mkSim lg3 1))).sum +
        (3 / 10) *
          (([mkPlayer 1 "RB" none 9 4 none,
              mkPlayer 2 "RB" none 7 3 none].filter
              (fun p => !((get_optimal_lineup
                [mkPlayer 1 "RB" none 9 4 none,
                  mkPlayer 2 "RB" none 7 3 none]).contains p))).map
            (rosterPlayerValue (mkSim lg3 1))).sum) ∧
    ((mkSim lg3 1).player_states.lookup
      (mkPlayer 1 "RB" none 9 4 none).playerId = none) ∧
    rosterPlayerValue (mkSim lg3 1) (mkPlayer 1 "RB" none 9 4 none) =
      (if (mkPlayer 1 "RB" none 9 4 none).projected_avg_points ≠ 0 then
        (mkPlayer 1 "RB" none 9 4 none).projected_avg_points
       else (mkPlayer 1 "RB" none 9 4 none).avg_points) :=
  ⟨(c8_roster_value (mkSim lg3 1)
      [mkPlayer 1 "RB" none 9 4 none, mkPlayer 2 "RB" none 7 3 none]).1,
    rfl,
    (c8_roster_value (mkSim lg3 1)
      [mkPlayer 1 "RB" none 9 4 none, mkPlayer 2 "RB" none 7 3 none]).2
      (mkPlayer 1 "RB" none 9 4 none) rfl⟩

lemma mkRecommendation_some (my_team : Team) (positions : Option (List String))
    (excl : Bool) (fa : Player) (r : Recommendation)
    (h : mkRecommendation my_team positions excl fa = some r) :
    r.player = fa ∧
    (excl = true → statusAvailable fa.injury_status = true) := by
  unfold mkRecommendation at h
  by_cases h1 : positionExcluded positions fa.position
  · rw [if_pos h1] at h; exact absurd h (by simp)
  rw [if_neg h1] at h
  by_cases h2 : excl && !statusAvailable fa.injury_status
  · rw [if_pos h2] at h; exact absurd h (by simp)
  rw [if_neg h2] at h
  constructor
  · by_cases h3 : 0 < faValueAdded my_team fa
    · rw [if_pos h3] at h
      cases h
      rfl
    · rw [if_neg h3] at h; exact absurd h (by simp)
  · intro he
    subst he
    simpa using h2

/-- C2 (spec-modelled exclude_injured filter): with `exclude_injured=true`
every returned recommendation carries an available status — unset, empty,
ACTIVE or NORMAL up to case; with `exclude_injured=false` a candidate is
retained exactly when it passes the position filter and adds positive
value — the injury status is never consulted, so injured players are not
excluded. -/
theorem c2_free_agent_injury_filter (my_team : Team)
    (free_agents : List Player) (top_n : ℕ)
    (positions : Option (List String)) :
    (∀ r ∈ recommend_free_agents my_team free_agents top_n positions true,
      statusAvailable r.player.injury_status = true) ∧
    (∀ fa : Player,
      (mkRecommendation my_team positions false fa).isSome =
        (!positionExcluded positions fa.position &&
          decide (0 < faValueAdded my_team fa))) := by
  constructor
  · intro r hr
    have hr1 : r ∈ free_agents.filterMap
        (mkRecommendation my_team positions true) := by
      have := List.mem_of_mem_take hr
      rwa [List.mem_insertionSort] at this
    obtain ⟨fa, _, hfa⟩ := List.mem_filterMap.mp hr1
    obtain ⟨hplayer, hstatus⟩ :=
      mkRecommendation_some my_team positions true fa r hfa
    rw [hplayer]
    exact hstatus rfl
  · intro fa
    unfold mkRecommendation
    by_cases h1 : positionExcluded positions fa.position
    · simp [h1]
    by_cases h2 : 0 < faValueAdded my_team fa
    · simp [h1, h2]
    · simp [h1, h2]

/-- Witness for C2: with one 8-point RB rostered, a healthy 12-point RB free
agent is recommended (value added 4, priority HIGH) and its ACTIVE status
is in the available set. -/
theorem c2_free_agent_injury_filter_witness :
    ∃ r ∈ recommend_free_agents
        (mkTeam 1 0 [mkPlayer 1 "RB" none 8 8 none] [])
        [mkPlayer 2 "RB" none 12 12 none] 10 none true,
      statusAvailable r.player.injury_status = true := by
  have hfa : mkRecommendation
      (mkTeam 1 0 [mkPlayer 1 "RB" none 8 8 none] []) none true
      (mkPlayer 2 "RB" none 12 12 none) = some
      { player := mkPlayer 2 "RB" none 12 12 none
        position := "RB"
        value_added := 4
        drop_candidate := "P"
        fa_projected_avg := 12
        drop_projected_avg := 8
        priority := "HIGH"
        ownership_pct := 0 } := by
    norm_num [mkRecommendation, positionExcluded, statusAvailable,
      pythonMinByValue, pyValue, mkPlayer, mkTeam,
      faValueAdded, faDropCandidate, faDropValue]
  have hmem :
      ({ player := mkPlayer 2 "RB" none 12 12 none
         position := "RB"
         value_added := 4
         drop_candidate := "P"
         fa_projected_avg := 12
         drop_projected_avg := 8
         priority := "HIGH"
         ownership_pct := 0 } : Recommendation) ∈
      recommend_free_agents
        (mkTeam 1 0 [mkPlayer 1 "RB" none 8 8 none] [])
        [mkPlayer 2 "RB" none 12 12 none] 10 none true := by
    unfold recommend_free_agents
    rw [List.filterMap_cons, hfa]
    simp [List.insertionSort, List.orderedInsert]
  exact ⟨_, hmem,
    (c2_free_agent_injury_filter
      (mkTeam 1 0 [mkPlayer 1 "RB" none 8 8 none] [])
      [mkPlayer 2 "RB" none 12 12 none] 10 none).1 _ hmem⟩

lemma bracketRound_spec (sim : AdvancedFantasySimulator) :
    ∀ (l : List ℕ) (rng : Rng) (res : List ℕ × Rng),
      bracketRound sim l rng = some res →
      res.1.length = (l.length + 1) / 2 ∧ res.1 ⊆ l
  | [], _, res, h => by
    simp only [bracketRound, Option.some.injEq] at h
    subst h
    simp
  | [t], _, res, h => by
    simp only [bracketRound, Option.some.injEq] at h
    subst h
    simp
  | t1 :: t2 :: rest, rng, res, h => by
    cases hl1 : lookupTeam sim.league t1 with
    | none => simp only [bracketRound, hl1] at h; exact absurd h (by simp)
    | some tm1 =>
      cases hl2 : lookupTeam sim.league t2 with
      | none =>
        simp only [bracketRound, hl1, hl2] at h
        exact absurd h (by simp)
      | some tm2 =>
        simp only [bracketRound, hl1, hl2, Option.map_eq_some'] at h
        obtain ⟨wr, hwr, hres⟩ := h
        have ih := bracketRound_spec sim rest _ wr hwr
        subst hres
        constructor
        · simp only [List.length_cons, ih.1]
          omega
        · intro x hx
          simp only [List.mem_cons] at hx ⊢
          rcases hx with hx | hx
          · subst hx
            by_cases hw : (simulate_roster_score sim tm2 1
                (simulate_roster_score sim tm1 1 rng).2).1 <
                  (simulate_roster_score sim tm1 1 rng).1
            · simp [hw]
            · simp [hw]
          · exact Or.inr (Or.inr (ih.2 hx))

lemma bracketRound_isSome (sim : AdvancedFantasySimulator) :
    ∀ (l : List ℕ) (rng : Rng),
      (∀ id ∈ l, (lookupTeam sim.league id).isSome) →
      ∃ res, bracketRound sim l rng = some res
  | [], rng, _ => ⟨([], rng), rfl⟩
  | [t], rng, _ => ⟨([t], rng), rfl⟩
  | t1 :: t2 :: rest, rng, hlk => by
    obtain ⟨tm1, hl1⟩ := Option.isSome_iff_exists.mp
      (hlk t1 (List.mem_cons_self _ _))
    obtain ⟨tm2, hl2⟩ := Option.isSome_iff_exists.mp
      (hlk t2 (List.mem_cons_of_mem _ (List.mem_cons_self _ _)))
    obtain ⟨wr, hwr⟩ := bracketRound_isSome sim rest
      (simulate_roster_score sim tm2 1
        (simulate_roster_score sim tm1 1 rng).2).2
      (fun id hid => hlk id
        (List.mem_cons_of_mem _ (List.mem_cons_of_mem _ hid)))
    refine ⟨((if (simulate_roster_score sim tm2 1
        (simulate_roster_score sim tm1 1 rng).2).1 <
          (simulate_roster_score sim tm1 1 rng).1 then t1 else t2) :: wr.1,
      wr.2), ?_⟩
    simp only [bracketRound, hl1, hl2, hwr]
    rfl

lemma bracket_some_mem (sim : AdvancedFantasySimulator) :
    ∀ (n : ℕ) (l : List ℕ) (rng : Rng), l.length = n → l ≠ [] →
      (∀ id ∈ l, (lookupTeam sim.league id).isSome) →
      ∃ c r, simulate_playoff_bracket sim l rng = some (c, r) ∧ c ∈ l := by
  intro n
  induction n using Nat.strong_induction_on with
  | _ n ih =>
    intro l rng hn hne hlk
    by_cases hlen : l.length ≤ 1
    · match l, hne with
      | [t], _ =>
        refine ⟨t, rng, ?_, List.mem_cons_self _ _⟩
        rw [simulate_playoff_bracket]
        simp
    · obtain ⟨⟨ws, r1⟩, hws⟩ := bracketRound_isSome sim l rng hlk
      have hspec := bracketRound_spec sim l rng _ hws
      have hlt : ws.length < l.length := by
        have h1 := hspec.1
        simp only [] at h1
        omega
      have hwsne : ws ≠ [] := by
        intro hemp
        have h1 := hspec.1
        rw [hemp] at h1
        simp only [List.length_nil] at h1
        omega
      obtain ⟨c, r2, hrec, hcmem⟩ := ih ws.length (hn ▸ hlt) ws r1 rfl
        hwsne (fun id hid => hlk id (hspec.2 hid))
      refine ⟨c, r2, ?_, hspec.2 hcmem⟩
      rw [simulate_playoff_bracket, dif_neg hlen, hws]
      show (if h2 : ws.length < l.length then
        simulate_playoff_bracket sim ws r1 else none) = some (c, r2)
      rw [dif_pos hlt]
      exact hrec

lemma bracketRound_bye (sim : AdvancedFantasySimulator) :
    ∀ (ts : List ℕ) (t : ℕ) (rng : Rng) (ws : List ℕ) (r : Rng),
      ts.length % 2 = 0 → bracketRound sim ts rng = some (ws, r) →
      bracketRound sim (ts ++ [t]) rng = some (ws ++ [t], r)
  | [], t, rng, ws, r, _, h => by
    simp only [bracketRound, Option.some.injEq, Prod.mk.injEq] at h
    obtain ⟨h1, h2⟩ := h
    subst h1; subst h2
    simp [bracketRound]
  | [x], _, _, _, _, hev, _ => by
    simp only [List.length_singleton] at hev
    omega
  | t1 :: t2 :: rest, t, rng, ws, r, hev, h => by
    cases hl1 : lookupTeam sim.league t1 with
    | none => simp only [bracketRound, hl1] at h; exact absurd h (by simp)
    | some tm1 =>
      cases hl2 : lookupTeam sim.league t2 with
      | none =>
        simp only [bracketRound, hl1, hl2] at h
        exact absurd h (by simp)
      | some tm2 =>
        simp only [bracketRound, hl1, hl2, Option.map_eq_some'] at h
        obtain ⟨⟨wr, r2⟩, hwr, hres⟩ := h
        have hevr : rest.length % 2 = 0 := by
          simp only [List.length_cons] at hev
          omega
        have ih := bracketRound_bye sim rest t _ wr r2 hevr hwr
        have hshape : (t1 :: t2 :: rest) ++ [t] = t1 :: t2 :: (rest ++ [t]) := rfl
        rw [hshape]
        simp only [bracketRound, hl1, hl2, ih, Option.map_some]
        simp only [Prod.mk.injEq] at hres
        obtain ⟨h1, h2⟩ := hres
        subst h2
        rw [← h1]
        simp

/-- C5: on a non-empty list of playoff team ids that all resolve against the
league, the bracket terminates with a champion drawn from the input list;
and in any round, an unpaired trailing team after an even-length prefix
advances to the next round without playing and without consuming
randomness. -/
theorem c5_playoff_bracket (sim : AdvancedFantasySimulator) (ids : List ℕ)
    (rng : Rng) (hne : ids ≠ [])
    (hlk : ∀ id ∈ ids, (lookupTeam sim.league id).isSome) :
    (∃ c r, simulate_playoff_bracket sim ids rng = some (c, r) ∧ c ∈ ids) ∧
    (∀ (ts : List ℕ) (t : ℕ) (rng2 : Rng) (ws : List ℕ) (r : Rng),
      ts.length % 2 = 0 → bracketRound sim ts rng2 = some (ws, r) →
      bracketRound sim (ts ++ [t]) rng2 = some (ws ++ [t], r)) :=
  ⟨bracket_some_mem sim ids.length ids rng rfl hne hlk,
    fun ts t rng2 ws r hev h => bracketRound_bye sim ts t rng2 ws r hev h⟩

/-- Witness for C5: the bracket over the three league teams 1, 2, 3 returns
a champion among them. -/
theorem c5_playoff_bracket_witness :
    ∃ c r, simulate_playoff_bracket (mkSim lg3 1) [1, 2, 3] rng0 =
      some (c, r) ∧ c ∈ [1, 2, 3] :=
  (c5_playoff_bracket (mkSim lg3 1) [1, 2, 3] rng0 (by simp)
    (by decide)).1

lemma mkTeam_team_id (id w : ℕ) (r : List Player) (s : List ℕ) :
    (mkTeam id w r s).team_id = id := rfl

lemma mkTeam_wins (id w : ℕ) (r : List Player) (s : List ℕ) :
    (mkTeam id w r s).wins = w := rfl

lemma mkTeam_schedule (id w : ℕ) (r : List Player) (s : List ℕ) :
    (mkTeam id w r s).schedule = s := rfl

lemma simulate_roster_score_single (sim : AdvancedFantasySimulator)
    (id w pid : ℕ) (sch : List ℕ) (proj avg : ℚ) (f : ℕ → ℚ) (i : ℕ)
    (rating : ℚ) :
    simulate_roster_score sim
      (mkTeam id w [mkPlayer pid "RB" (some "RB") proj avg none] sch)
      rating ⟨f, i⟩ = (max 0 (f i * rating), ⟨f, i + 1⟩) := by
  simp [simulate_roster_score, pickStarters, isExplicitStarter, mkTeam,
    mkPlayer, samplePlayerScore, Rng.draw]

lemma lookup_lgPair_2 : lookupTeam lgPair 2 =
    some (mkTeam 2 0 [mkPlayer 22 "RB" (some "RB") 10 10 none] [1]) := by
  simp [lookupTeam, lgPair, List.find?, mkTeam, mkPlayer]

lemma lookup_lgPair_1 : lookupTeam lgPair 1 =
    some (mkTeam 1 0 [mkPlayer 11 "RB" (some "RB") 10 10 none] [2]) := by
  simp [lookupTeam, lgPair, List.find?, mkTeam, mkPlayer]

/-- Counterexample to C3 as stated: in `lgPair`, teams 1 and 2 share a single
remaining matchup, listed once in each team's schedule.  One season trial
under the alternating entropy stream simulates that matchup TWICE — once
from each team's perspective, with independent draws — and awards a win to
team 1 in the first simulated game and a win to team 2 in the second.  The
total number of wins added across all teams is therefore 2, not 1 = the
number of remaining matchups, and the matchup did not award exactly one win
to exactly one of its two teams. -/
theorem c3_counterexample :
    (seasonTrial (mkSim lgPair 1) rngAlt).1 = [(1, 1), (2, 1)] ∧
    lgPair.teams.map Team.schedule = [[2], [1]] ∧
    lgPair.teams.map Team.wins = [0, 0] ∧
    sumWins (seasonTrial (mkSim lgPair 1) rngAlt).1 ≠ 1 := by
  have hsim : (mkSim lgPair 1).league = lgPair := rfl
  have e1 : playScheduleEntry (mkSim lgPair 1)
      (mkTeam 1 0 [mkPlayer 11 "RB" (some "RB") 10 10 none] [2])
      ([(1, 0), (2, 0)], rngAlt) 2 =
      ([(1, 1), (2, 0)], ⟨rngAlt.stream, 2⟩) := by
    rw [playScheduleEntry, hsim, lookup_lgPair_2]
    show (if (2 : ℕ) == 1 then _ else _) = _
    rw [if_neg (by norm_num)]
    have hr : rngAlt = (⟨rngAlt.stream, 0⟩ : Rng) := rfl
    rw [hr]
    rw [simulate_roster_score_single]
    simp only []
    rw [simulate_roster_score_single]
    simp only [mkTeam_team_id]
    norm_num [rngAlt, bumpWins]
  have e2 : playScheduleEntry (mkSim lgPair 1)
      (mkTeam 2 0 [mkPlayer 22 "RB" (some "RB") 10 10 none] [1])
      ([(1, 1), (2, 0)], ⟨rngAlt.stream, 2⟩) 1 =
      ([(1, 1), (2, 1)], ⟨rngAlt.stream, 4⟩) := by
    rw [playScheduleEntry, hsim, lookup_lgPair_1]
    show (if (1 : ℕ) == 2 then _ else _) = _
    rw [if_neg (by norm_num)]
    rw [simulate_roster_score_single]
    simp only []
    rw [simulate_roster_score_single]
    simp only [mkTeam_team_id]
    norm_num [rngAlt, bumpWins]
  have htrial : (seasonTrial (mkSim lgPair 1) rngAlt).1 = [(1, 1), (2, 1)] := by
    have hcw : lgPair.current_week = 0 := rfl
    have hteams : lgPair.teams =
        [mkTeam 1 0 [mkPlayer 11 "RB" (some "RB") 10 10 none] [2],
         mkTeam 2 0 [mkPlayer 22 "RB" (some "RB") 10 10 none] [1]] := rfl
    unfold seasonTrial
    rw [hsim, hcw, hteams]
    simp only [List.map_cons, List.map_nil, mkTeam_team_id,
      mkTeam_wins, mkTeam_schedule, List.drop_zero, List.foldl_cons,
      List.foldl_nil]
    rw [e1, e2]
  refine ⟨htrial, rfl, rfl, ?_⟩
  rw [htrial]
  norm_num [sumWins]

lemma sumWins_cons (e : ℕ × ℕ) (l : List (ℕ × ℕ)) :
    sumWins (e :: l) = e.2 + sumWins l := by simp [sumWins]

lemma bumpWins_keys (tid : ℕ) (sw : List (ℕ × ℕ)) :
    (bumpWins tid sw).map Prod.fst = sw.map Prod.fst := by
  unfold bumpWins
  induction sw with
  | nil => rfl
  | cons e rest ih =>
    simp only [List.map_cons, ih, List.cons.injEq, and_true]
    by_cases h : e.1 == tid <;> simp [h]

lemma bumpWins_lookup_ne (tid tid' : ℕ) (h : tid' ≠ tid)
    (sw : List (ℕ × ℕ)) :
    (bumpWins tid sw).lookup tid' = sw.lookup tid' := by
  induction sw with
  | nil => rfl
  | cons e rest ih =>
    obtain ⟨k, v⟩ := e
    have hb : bumpWins tid ((k, v) :: rest) =
        (if k == tid then (k, v + 1) else (k, v)) :: bumpWins tid rest := rfl
    rw [hb]
    by_cases h1 : (k == tid) = true
    · have he : k = tid := by simpa using h1
      have h2 : (tid' == k) = false := by
        subst he
        exact beq_eq_false_iff_ne.mpr h
      rw [if_pos h1]
      show (match tid' == k with
        | true => some (v + 1)
        | false => (bumpWins tid rest).lookup tid') = _
      rw [h2]
      show (bumpWins tid rest).lookup tid' =
        (match tid' == k with
          | true => some v
          | false => rest.lookup tid')
      rw [h2]
      exact ih
    · rw [if_neg h1]
      show (match tid' == k with
        | true => some v
        | false => (bumpWins tid rest).lookup tid') = _
      cases h2 : tid' == k
      · show (bumpWins tid rest).lookup tid' =
          (match tid' == k with
            | true => some v
            | false => rest.lookup tid')
        rw [h2]
        exact ih
      · show some v = (match tid' == k with
          | true => some v
          | false => rest.lookup tid')
        rw [h2]

lemma bumpWins_lookup_self (tid : ℕ) (sw : List (ℕ × ℕ)) :
    (bumpWins tid sw).lookup tid = (sw.lookup tid).map (· + 1) := by
  induction sw with
  | nil => rfl
  | cons e rest ih =>
    obtain ⟨k, v⟩ := e
    have hb : bumpWins tid ((k, v) :: rest) =
        (if k == tid then (k, v + 1) else (k, v)) :: bumpWins tid rest := rfl
    rw [hb]
    by_cases h1 : (k == tid) = true
    · have he : k = tid := by simpa using h1
      have h2 : (tid == k) = true := by subst he; exact beq_self_eq_true k
      rw [if_pos h1]
      show (match tid == k with
        | true => some (v + 1)
        | false => (bumpWins tid rest).lookup tid) =
        ((match tid == k with
          | true => some v
          | false => rest.lookup tid).map (· + 1))
      rw [h2]
      rfl
    · have h2 : (tid == k) = false := by
        have hne : ¬ k = tid := by simpa using h1
        exact beq_eq_false_iff_ne.mpr (fun hh => hne hh.symm)
      rw [if_neg h1]
      show (match tid == k with
        | true => some v
        | false => (bumpWins tid rest).lookup tid) =
        ((match tid == k with
          | true => some v
          | false => rest.lookup tid).map (· + 1))
      rw [h2]
      exact ih

lemma bumpWins_not_mem (tid : ℕ) (sw : List (ℕ × ℕ))
    (h : tid ∉ sw.map Prod.fst) : bumpWins tid sw = sw := by
  unfold bumpWins
  induction sw with
  | nil => rfl
  | cons e rest ih =>
    simp only [List.map_cons, List.mem_cons, not_or] at h
    have h1 : (e.1 == tid) = false := by
      simp
      omega
    simp only [List.map_cons, h1, Bool.false_eq_true, if_false,
      List.cons.injEq, true_and]
    exact ih h.2

lemma sumWins_bumpWins_le (tid : ℕ) (sw : List (ℕ × ℕ))
    (hnd : (sw.map Prod.fst).Nodup) :
    sumWins (bumpWins tid sw) ≤ sumWins sw + 1 := by
  induction sw with
  | nil => simp [bumpWins, sumWins]
  | cons e rest ih =>
    simp only [List.map_cons, List.nodup_cons] at hnd
    have hb : bumpWins tid (e :: rest) =
        (if e.1 == tid then (e.1, e.2 + 1) else e) :: bumpWins tid rest := rfl
    rw [hb]
    by_cases h1 : e.1 == tid
    · have he : e.1 = tid := by simpa using h1
      have hrest : bumpWins tid rest = rest :=
        bumpWins_not_mem tid rest (he ▸ hnd.1)
      rw [if_pos h1, hrest, sumWins_cons, sumWins_cons]
      omega
    · rw [if_neg h1, sumWins_cons, sumWins_cons]
      have := ih hnd.2
      omega

lemma playEntry_cases (sim : AdvancedFantasySimulator) (team : Team)
    (acc : List (ℕ × ℕ) × Rng) (opp : ℕ) :
    (playScheduleEntry sim team acc opp).1 = acc.1 ∨
    (playScheduleEntry sim team acc opp).1 = bumpWins team.team_id acc.1 := by
  unfold playScheduleEntry
  split
  · exact Or.inl rfl
  · split
    · exact Or.inl rfl
    · split
      · next ts r1 heq =>
        split
        · next os r2 heq2 =>
          simp only []
          by_cases hw : os < ts
          · rw [if_pos hw]; exact Or.inr rfl
          · rw [if_neg hw]; exact Or.inl rfl

lemma playEntry_keys (sim : AdvancedFantasySimulator) (team : Team)
    (acc : List (ℕ × ℕ) × Rng) (opp : ℕ) :
    ((playScheduleEntry sim team acc opp).1).map Prod.fst =
      acc.1.map Prod.fst := by
  rcases playEntry_cases sim team acc opp with h | h <;> rw [h]
  exact bumpWins_keys _ _

lemma playEntry_lookup_ne (sim : AdvancedFantasySimulator) (team : Team)
    (acc : List (ℕ × ℕ) × Rng) (opp : ℕ) (tid : ℕ)
    (h : tid ≠ team.team_id) :
    ((playScheduleEntry sim team acc opp).1).lookup tid =
      acc.1.lookup tid := by
  rcases playEntry_cases sim team acc opp with h1 | h1 <;> rw [h1]
  exact bumpWins_lookup_ne _ _ h _

lemma playEntry_lookup_self (sim : AdvancedFantasySimulator) (team : Team)
    (acc : List (ℕ × ℕ) × Rng) (opp : ℕ) (w : ℕ)
    (h : acc.1.lookup team.team_id = some w) :
    ∃ w2, ((playScheduleEntry sim team acc opp).1).lookup team.team_id =
      some w2 ∧ w ≤ w2 ∧ w2 ≤ w + 1 := by
  rcases playEntry_cases sim team acc opp with h1 | h1 <;> rw [h1]
  · exact ⟨w, h, le_rfl, by omega⟩
  · rw [bumpWins_lookup_self, h]
    exact ⟨w + 1, rfl, by omega, le_rfl⟩

lemma playEntry_sum (sim : AdvancedFantasySimulator) (team : Team)
    (acc : List (ℕ × ℕ) × Rng) (opp : ℕ)
    (hnd : (acc.1.map Prod.fst).Nodup) :
    sumWins (playScheduleEntry sim team acc opp).1 ≤ sumWins acc.1 + 1 := by
  rcases playEntry_cases sim team acc opp with h1 | h1 <;> rw [h1]
  · omega
  · exact sumWins_bumpWins_le _ _ hnd

lemma entriesFold_keys (sim : AdvancedFantasySimulator) (team : Team) :
    ∀ (entries : List ℕ) (acc : List (ℕ × ℕ) × Rng),
      ((entries.foldl (playScheduleEntry sim team) acc).1).map Prod.fst =
        acc.1.map Prod.fst
  | [], _ => rfl
  | e :: rest, acc => by
    rw [List.foldl_cons, entriesFold_keys sim team rest]
    exact playEntry_keys sim team acc e

lemma entriesFold_lookup_ne (sim : AdvancedFantasySimulator) (team : Team)
    (tid : ℕ) (h : tid ≠ team.team_id) :
    ∀ (entries : List ℕ) (acc : List (ℕ × ℕ) × Rng),
      ((entries.foldl (playScheduleEntry sim team) acc).1).lookup tid =
        acc.1.lookup tid
  | [], _ => rfl
  | e :: rest, acc => by
    rw [List.foldl_cons, entriesFold_lookup_ne sim team tid h rest]
    exact playEntry_lookup_ne sim team acc e tid h

lemma entriesFold_lookup_self (sim : AdvancedFantasySimulator) (team : Team) :
    ∀ (entries : List ℕ) (acc : List (ℕ × ℕ) × Rng) (w : ℕ),
      acc.1.lookup team.team_id = some w →
      ∃ w2, ((entries.foldl (playScheduleEntry sim team) acc).1).lookup
          team.team_id = some w2 ∧ w ≤ w2 ∧ w2 ≤ w + entries.length
  | [], _, w, h => ⟨w, h, le_rfl, by simp⟩
  | e :: rest, acc, w, h => by
    obtain ⟨w1, hw1, hle1, hle2⟩ := playEntry_lookup_self sim team acc e w h
    obtain ⟨w2, hw2, hle3, hle4⟩ :=
      entriesFold_lookup_self sim team rest (playScheduleEntry sim team acc e)
        w1 hw1
    refine ⟨w2, by rw [List.foldl_cons]; exact hw2, by omega, ?_⟩
    simp only [List.length_cons]
    omega

lemma entriesFold_sum (sim : AdvancedFantasySimulator) (team : Team) :
    ∀ (entries : List ℕ) (acc : List (ℕ × ℕ) × Rng),
      (acc.1.map Prod.fst).Nodup →
      sumWins (entries.foldl (playScheduleEntry sim team) acc).1 ≤
        sumWins acc.1 + entries.length
  | [], _, _ => by simp
  | e :: rest, acc, hnd => by
    have h1 := playEntry_sum sim team acc e hnd
    have hnd2 : (((playScheduleEntry sim team acc e).1).map Prod.fst).Nodup :=
      by rw [playEntry_keys]; exact hnd
    have h2 := entriesFold_sum sim team rest (playScheduleEntry sim team acc e)
      hnd2
    rw [List.foldl_cons]
    simp only [List.length_cons]
    omega

lemma seasonFold_keys (sim : AdvancedFantasySimulator) :
    ∀ (ts : List Team) (acc : List (ℕ × ℕ) × Rng),
      ((seasonFold sim ts acc).1).map Prod.fst = acc.1.map Prod.fst
  | [], _ => rfl
  | t :: rest, acc => by
    show ((seasonFold sim rest _).1).map Prod.fst = _
    rw [seasonFold_keys sim rest]
    exact entriesFold_keys sim t _ acc

lemma seasonFold_lookup_not_mem (sim : AdvancedFantasySimulator) (tid : ℕ) :
    ∀ (ts : List Team) (acc : List (ℕ × ℕ) × Rng),
      tid ∉ ts.map Team.team_id →
      ((seasonFold sim ts acc).1).lookup tid = acc.1.lookup tid
  | [], _, _ => rfl
  | t :: rest, acc, h => by
    simp only [List.map_cons, List.mem_cons, not_or] at h
    show ((seasonFold sim rest _).1).lookup tid = _
    rw [seasonFold_lookup_not_mem sim tid rest _ (by simpa using h.2)]
    exact entriesFold_lookup_ne sim t tid h.1 _ acc

lemma seasonFold_lookup_mem (sim : AdvancedFantasySimulator) :
    ∀ (ts : List Team) (acc : List (ℕ × ℕ) × Rng) (t : Team),
      t ∈ ts → (ts.map Team.team_id).Nodup →
      ∀ w0, acc.1.lookup t.team_id = some w0 →
      ∃ w, ((seasonFold sim ts acc).1).lookup t.team_id = some w ∧
        w0 ≤ w ∧
        w ≤ w0 + (t.schedule.drop sim.league.current_week).length
  | [], _, t, hmem, _, _, _ => absurd hmem (List.not_mem_nil t)
  | t' :: rest, acc, t, hmem, hnd, w0, h0 => by
    simp only [List.map_cons, List.nodup_cons] at hnd
    rcases List.mem_cons.mp hmem with heq | hmem2
    · subst heq
      obtain ⟨w1, hw1, hle1, hle2⟩ := entriesFold_lookup_self sim t
        (t.schedule.drop sim.league.current_week) acc w0 h0
      refine ⟨w1, ?_, hle1, hle2⟩
      show ((seasonFold sim rest _).1).lookup t.team_id = some w1
      rw [seasonFold_lookup_not_mem sim t.team_id rest _ hnd.1]
      exact hw1
    · have hne : t.team_id ≠ t'.team_id := by
        intro he
        exact hnd.1 (he ▸ (List.mem_map.mpr ⟨t, hmem2, rfl⟩))
      have h1 : (((t'.schedule.drop sim.league.current_week).foldl
          (playScheduleEntry sim t') acc).1).lookup t.team_id = some w0 := by
        rw [entriesFold_lookup_ne sim t' t.team_id hne]
        exact h0
      exact seasonFold_lookup_mem sim rest _ t hmem2 hnd.2 w0 h1

lemma seasonFold_sum (sim : AdvancedFantasySimulator) :
    ∀ (ts : List Team) (acc : List (ℕ × ℕ) × Rng),
      (acc.1.map Prod.fst).Nodup →
      sumWins (seasonFold sim ts acc).1 ≤ sumWins acc.1 +
        (ts.map (fun t =>
          (t.schedule.drop sim.league.current_week).length)).sum
  | [], _, _ => by simp [seasonFold]
  | t :: rest, acc, hnd => by
    have h1 := entriesFold_sum sim t
      (t.schedule.drop sim.league.current_week) acc hnd
    have hnd2 := hnd
    rw [← entriesFold_keys sim t (t.schedule.drop sim.league.current_week)
      acc] at hnd2
    have h2 := seasonFold_sum sim rest _ hnd2
    show sumWins (seasonFold sim rest _).1 ≤ _
    simp only [List.map_cons, List.sum_cons]
    omega

lemma initTable_keys (ts : List Team) :
    ((ts.map (fun t => (t.team_id, t.wins))).map Prod.fst) =
      ts.map Team.team_id := by
  rw [List.map_map]
  rfl

lemma initTable_lookup : ∀ (ts : List Team) (t : Team), t ∈ ts →
    (ts.map Team.team_id).Nodup →
    (ts.map (fun t => (t.team_id, t.wins))).lookup t.team_id = some t.wins
  | [], t, hmem, _ => absurd hmem (List.not_mem_nil t)
  | t' :: rest, t, hmem, hnd => by
    simp only [List.map_cons, List.nodup_cons] at hnd
    rcases List.mem_cons.mp hmem with heq | hmem2
    · subst heq
      show (match t.team_id == t.team_id with
        | true => some t.wins
        | false => (rest.map (fun (u : Team) => (u.team_id, u.wins))).lookup
            t.team_id) = _
      rw [beq_self_eq_true]
    · have hne : t.team_id ≠ t'.team_id := fun he =>
        hnd.1 (he ▸ List.mem_map.mpr ⟨t, hmem2, rfl⟩)
      show (match t.team_id == t'.team_id with
        | true => some t'.wins
        | false => (rest.map (fun (u : Team) => (u.team_id, u.wins))).lookup
            t.team_id) = _
      rw [beq_eq_false_iff_ne.mpr hne]
      exact initTable_lookup rest t hmem2 hnd.2

lemma initTable_sum (ts : List Team) :
    sumWins (ts.map (fun t => (t.team_id, t.wins))) =
      (ts.map Team.wins).sum := by
  unfold sumWins
  rw [List.map_map]
  rfl

/-- C3 as amended: a season trial walks every remaining schedule entry of
every team — each matchup therefore appears once per participating team,
i.e. twice in total, with independent draws — and each simulated game
awards at most one win, to the scheduling team exactly when its sampled
score strictly exceeds the opponent's (ties award none).  Hence the win
table keeps one entry per team; each team's trial wins lie between its
recorded wins and recorded wins plus its own remaining entries; and the
total wins added across all teams is at most the total number of remaining
schedule entries (twice the number of remaining matchups), not exactly the
number of matchups. -/
theorem c3_season_trial_wins (sim : AdvancedFantasySimulator) (rng : Rng)
    (hnd : (sim.league.teams.map Team.team_id).Nodup) :
    ((seasonTrial sim rng).1.map Prod.fst =
      sim.league.teams.map Team.team_id) ∧
    (∀ t ∈ sim.league.teams, ∃ w,
      (seasonTrial sim rng).1.lookup t.team_id = some w ∧
      t.wins ≤ w ∧
      w ≤ t.wins + (t.schedule.drop sim.league.current_week).length) ∧
    (sumWins (seasonTrial sim rng).1 ≤
      (sim.league.teams.map Team.wins).sum +
      (sim.league.teams.map (fun t =>
        (t.schedule.drop sim.league.current_week).length)).sum) := by
  have hst : seasonTrial sim rng = seasonFold sim sim.league.teams
      (sim.league.teams.map (fun t => (t.team_id, t.wins)), rng) := rfl
  rw [hst]
  refine ⟨?_, ?_, ?_⟩
  · rw [seasonFold_keys]
    exact initTable_keys _
  · intro t hmem
    exact seasonFold_lookup_mem sim sim.league.teams _ t hmem hnd t.wins
      (initTable_lookup _ t hmem hnd)
  · have hik : (((sim.league.teams.map
        (fun t => (t.team_id, t.wins))).map Prod.fst)).Nodup := by
      rw [initTable_keys]
      exact hnd
    have := seasonFold_sum sim sim.league.teams
      (sim.league.teams.map (fun t => (t.team_id, t.wins)), rng) hik
    rw [initTable_sum] at this
    exact this

/-- Witness for C3 as amended, on the two-team league of the
counterexample: its team ids are distinct and the trial's total win count
is bounded by recorded wins plus remaining schedule entries. -/
theorem c3_season_trial_wins_witness :
    ((mkSim lgPair 1).league.teams.map Team.team_id).Nodup ∧
    sumWins (seasonTrial (mkSim lgPair 1) rngAlt).1 ≤
      ((mkSim lgPair 1).league.teams.map Team.wins).sum +
      ((mkSim lgPair 1).league.teams.map (fun t =>
        (t.schedule.drop
          (mkSim lgPair 1).league.current_week).length)).sum :=
  ⟨by decide,
    (c3_season_trial_wins (mkSim lgPair 1) rngAlt (by decide)).2.2⟩

lemma seasonTrial_keys (sim : AdvancedFantasySimulator) (rng : Rng) :
    (seasonTrial sim rng).1.map Prod.fst =
      sim.league.teams.map Team.team_id := by
  have hst : seasonTrial sim rng = seasonFold sim sim.league.teams
      (sim.league.teams.map (fun t => (t.team_id, t.wins)), rng) := rfl
  rw [hst, seasonFold_keys]
  exact initTable_keys _

lemma lookupTeam_isSome (lg : League) (id : ℕ)
    (h : id ∈ lg.teams.map Team.team_id) : (lookupTeam lg id).isSome := by
  unfold lookupTeam
  rw [List.find?_isSome]
  obtain ⟨t, hmem, rfl⟩ := List.mem_map.mp h
  exact ⟨t, hmem, by simp⟩

lemma playoffTeams_subset (sim : AdvancedFantasySimulator)
    (sw : List (ℕ × ℕ)) : playoffTeams sim sw ⊆ sw.map Prod.fst := by
  intro x hx
  unfold playoffTeams at hx
  obtain ⟨e, he, rfl⟩ := List.mem_map.mp hx
  have h1 : e ∈ List.insertionSort winsGe sw := List.mem_of_mem_take he
  rw [List.mem_insertionSort] at h1
  exact List.mem_map.mpr ⟨e, h1, rfl⟩

lemma seasonTrialFull_champ_mem (sim : AdvancedFantasySimulator)
    (rng : Rng) :
    ∀ c, (seasonTrialFull sim rng).2.2.1 = some c →
      c ∈ (seasonTrialFull sim rng).2.1 := by
  intro c
  have hkeys0 := seasonTrial_keys sim rng
  rcases hs : seasonTrial sim rng with ⟨sw, r1⟩
  rw [hs] at hkeys0
  unfold seasonTrialFull
  rw [hs]
  simp only []
  by_cases hlen : 2 ≤ (playoffTeams sim sw).length
  · rw [if_pos hlen]
    have hne : playoffTeams sim sw ≠ [] := by
      intro he
      rw [he] at hlen
      simp at hlen
    have hlk : ∀ id ∈ playoffTeams sim sw,
        (lookupTeam sim.league id).isSome := by
      intro id hid
      apply lookupTeam_isSome
      rw [← hkeys0]
      exact playoffTeams_subset sim sw hid
    obtain ⟨c0, r0, heq, hmem⟩ := bracket_some_mem sim
      (playoffTeams sim sw).length _ r1 rfl hne hlk
    rw [heq]
    simp only []
    intro hc
    cases hc
    exact hmem
  · rw [if_neg hlen]
    simp only []
    intro hc
    exact absurd hc (by simp)

lemma addTrial_mem (results : List (ℕ × SeasonProjection))
    (sw : List (ℕ × ℕ)) (playoff : List ℕ) (champ : Option ℕ)
    (e : ℕ × SeasonProjection) (he : e ∈ addTrial results sw playoff champ) :
    ∃ e0 ∈ results, e.2.championship_odds = e0.2.championship_odds +
        (if champ == some e0.1 then 1 else 0) ∧
      e.2.playoff_odds = e0.2.playoff_odds +
        (if playoff.contains e0.1 then 1 else 0) := by
  unfold addTrial at he
  obtain ⟨e0, he0, hE⟩ := List.mem_map.mp he
  subst hE
  exact ⟨e0, he0, rfl, rfl⟩

lemma seasonLoop_inv (sim : AdvancedFantasySimulator) :
    ∀ (n : ℕ) (acc : List (ℕ × SeasonProjection) × Rng) (k : ℚ),
      (∀ e ∈ acc.1, 0 ≤ e.2.championship_odds ∧
        e.2.championship_odds ≤ e.2.playoff_odds ∧ e.2.playoff_odds ≤ k) →
      ∀ e ∈ (seasonLoop sim n acc).1, 0 ≤ e.2.championship_odds ∧
        e.2.championship_odds ≤ e.2.playoff_odds ∧
        e.2.playoff_odds ≤ k + n
  | 0, acc, k, h => by simpa using h
  | n + 1, acc, k, h => by
    have hchamp := seasonTrialFull_champ_mem sim acc.2
    rcases hf : seasonTrialFull sim acc.2 with ⟨sw, playoff, champ, r⟩
    rw [hf] at hchamp
    simp only [] at hchamp
    have hstep : ∀ e ∈ (addTrial acc.1 sw playoff champ),
        0 ≤ e.2.championship_odds ∧
        e.2.championship_odds ≤ e.2.playoff_odds ∧
        e.2.playoff_odds ≤ k + 1 := by
      intro e he
      obtain ⟨e0, he0, hc, hp⟩ := addTrial_mem acc.1 sw playoff champ e he
      obtain ⟨h1, h2, h3⟩ := h e0 he0
      have hinc : (if champ == some e0.1 then (1 : ℚ) else 0) ≤
          (if playoff.contains e0.1 then (1 : ℚ) else 0) := by
        by_cases hcc : champ == some e0.1
        · have : champ = some e0.1 := by simpa using hcc
          have hmem := hchamp e0.1 this
          have : playoff.contains e0.1 = true := by
            exact List.elem_eq_true_of_mem hmem
          rw [if_pos hcc, if_pos this]
        · rw [if_neg hcc]
          split <;> norm_num
      have hc0 : (0 : ℚ) ≤ (if champ == some e0.1 then (1 : ℚ) else 0) := by
        by_cases hcc : champ == some e0.1 <;> simp [hcc]
      have hp1 : (if playoff.contains e0.1 then (1 : ℚ) else 0) ≤ 1 := by
        split <;> norm_num
      refine ⟨by rw [hc]; linarith, by rw [hc, hp]; linarith,
        by rw [hp]; linarith⟩
    have := seasonLoop_inv sim n (addTrial acc.1 sw playoff champ, r) (k + 1)
      hstep
    intro e he
    have heq : seasonLoop sim (n + 1) acc =
        seasonLoop sim n (addTrial acc.1 sw playoff champ, r) := by
      show (match seasonTrialFull sim acc.2 with
        | (sw, playoff, champ, r) =>
          seasonLoop sim n (addTrial acc.1 sw playoff champ, r)) = _
      rw [hf]
    rw [heq] at he
    obtain ⟨g1, g2, g3⟩ := this e he
    refine ⟨g1, g2, ?_⟩
    have : k + 1 + (n : ℚ) = k + (n + 1 : ℕ) := by push_cast; ring
    linarith [this ▸ g3]

/-- C10: in the season projection every team's championship percentage is at
most its playoff percentage and both lie in [0, 100]: per trial each team
is counted at most once in the playoff tally, and the championship tick
goes to the bracket champion, which is one of that trial's playoff
qualifiers. -/
theorem c10_championship_le_playoff (sim : AdvancedFantasySimulator)
    (rng : Rng) :
    ∀ e ∈ simulate_season_rest_of_season sim rng,
      0 ≤ e.2.championship_odds ∧
      e.2.championship_odds ≤ e.2.playoff_odds ∧
      0 ≤ e.2.playoff_odds ∧ e.2.playoff_odds ≤ 100 := by
  intro e he
  unfold simulate_season_rest_of_season at he
  obtain ⟨e0, he0, hE⟩ := List.mem_map.mp he
  have hinit : ∀ x ∈ (sim.league.teams.map (fun t =>
      (t.team_id,
        { current_wins := t.wins
          projected_wins := 0
          playoff_odds := 0
          championship_odds := 0 : SeasonProjection }))),
      0 ≤ x.2.championship_odds ∧
      x.2.championship_odds ≤ x.2.playoff_odds ∧ x.2.playoff_odds ≤ 0 := by
    intro x hx
    obtain ⟨t, _, rfl⟩ := List.mem_map.mp hx
    exact ⟨le_rfl, le_rfl, le_rfl⟩
  have hloop := seasonLoop_inv sim sim.num_simulations _ 0 hinit e0 he0
  obtain ⟨h1, h2, h3⟩ := hloop
  rw [zero_add] at h3
  subst hE
  simp only []
  have hn0 : (0 : ℚ) ≤ (sim.num_simulations : ℚ) := by positivity
  by_cases hn : (sim.num_simulations : ℚ) = 0
  · have hp0 : e0.2.playoff_odds ≤ 0 := hn ▸ h3
    have hc0 : e0.2.championship_odds ≤ 0 := le_trans h2 hp0
    have hpe : e0.2.playoff_odds = 0 := le_antisymm hp0 (le_trans h1 h2)
    have hce : e0.2.championship_odds = 0 := le_antisymm hc0 h1
    rw [hpe, hce]
    norm_num
  · have hpos : (0 : ℚ) < (sim.num_simulations : ℚ) :=
      lt_of_le_of_ne hn0 (Ne.symm hn)
    have hpo : 0 ≤ e0.2.playoff_odds := le_trans h1 h2
    refine ⟨by positivity, ?_, by positivity, ?_⟩
    · have hd : e0.2.championship_odds / (sim.num_simulations : ℚ) ≤
          e0.2.playoff_odds / (sim.num_simulations : ℚ) :=
        (div_le_div_right hpos).mpr h2
      have := mul_le_mul_of_nonneg_right hd (by norm_num : (0 : ℚ) ≤ 100)
      linarith
    · have hd : e0.2.playoff_odds / (sim.num_simulations : ℚ) ≤ 1 :=
        (div_le_one hpos).mpr h3
      have := mul_le_mul_of_nonneg_right hd (by norm_num : (0 : ℚ) ≤ 100)
      linarith

/-- Witness for C10 on the three-team league: the first team's projection
record satisfies 0 ≤ championship ≤ playoff ≤ 100. -/
theorem c10_championship_le_playoff_witness :
    ∃ e ∈ simulate_season_rest_of_season (mkSim lg3 0) rng0,
      0 ≤ e.2.championship_odds ∧
      e.2.championship_odds ≤ e.2.playoff_odds ∧
      0 ≤ e.2.playoff_odds ∧ e.2.playoff_odds ≤ 100 := by
  have hmem : ((1, ⟨0, 0, 0, 0⟩) : ℕ × SeasonProjection) ∈
      simulate_season_rest_of_season (mkSim lg3 0) rng0 := by
    unfold simulate_season_rest_of_season seasonLoop
    norm_num [lg3, emptyTeam, mkTeam, mkSim]
  exact ⟨_, hmem, c10_championship_le_playoff (mkSim lg3 0) rng0 _ hmem⟩

/-! ### Lineup optimizer lemmas (claim C9) -/

lemma take_pair_stable {α : Type} {p q : α} :
    ∀ (l : List α) (k : ℕ), l.Nodup → List.Sublist [p, q] l →
      q ∈ l.take k → p ∈ l.take k
  | [], _, _, hsub, _ => by cases hsub.subset (List.mem_cons_self p [q])
  | x :: l', 0, _, _, hq => by simp at hq
  | x :: l', k + 1, hnd, hsub, hq => by
    rw [List.nodup_cons] at hnd
    cases hsub with
    | cons a h' =>
      have hql : q ∈ l' := h'.subset (by simp)
      have hqx : q ≠ x := fun he => hnd.1 (he ▸ hql)
      have hq2 : q ∈ l'.take k := by
        rcases List.mem_cons.mp (by simpa using hq) with he | hm
        · exact absurd he hqx
        · exact hm
      have := take_pair_stable l' k hnd.2 h' hq2
      simp [this]
    | cons₂ a h' => simp

lemma pair_sublist_decomp {p q : Player} :
    ∀ (l : List Player), List.Sublist [p, q] l →
      ∃ l1 l2 l3, l = l1 ++ (p :: (l2 ++ (q :: l3)))
  | [], h => by cases h.subset (List.mem_cons_self p [q])
  | x :: xs, h => by
    cases h with
    | cons a h' =>
      obtain ⟨l1, l2, l3, hE⟩ := pair_sublist_decomp xs h'
      exact ⟨x :: l1, l2, l3, by rw [hE]; rfl⟩
    | cons₂ a h' =>
      have hq : q ∈ xs := (List.singleton_sublist).mp h'
      obtain ⟨l2, l3, hE⟩ := List.append_of_mem hq
      exact ⟨[], l2, l3, by rw [hE]; rfl⟩

/-- The body of the `_get_optimal_lineup` helper without the pair
packaging: the players a slot selects. -/
lemma get_best_fst (pos : String) (count : ℕ) (remaining : List Player) :
    (get_best pos count remaining).1 =
      (List.insertionSort valueGe
        (remaining.filter (fun p => p.position == pos))).take count := rfl

lemma get_best_fst_subset (pos : String) (count : ℕ)
    (remaining : List Player) :
    ∀ p ∈ (get_best pos count remaining).1, p ∈ remaining := by
  intro p hp
  rw [get_best_fst] at hp
  have h1 := List.mem_of_mem_take hp
  rw [List.mem_insertionSort] at h1
  exact List.mem_of_mem_filter h1

lemma get_best_fst_position (pos : String) (count : ℕ)
    (remaining : List Player) :
    ∀ p ∈ (get_best pos count remaining).1, p.position = pos := by
  intro p hp
  rw [get_best_fst] at hp
  have h1 := List.mem_of_mem_take hp
  rw [List.mem_insertionSort] at h1
  simpa using List.of_mem_filter h1

lemma get_best_fst_length (pos : String) (count : ℕ)
    (remaining : List Player) :
    (get_best pos count remaining).1.length ≤ count := by
  rw [get_best_fst]
  simp

lemma get_best_fst_nodup (pos : String) (count : ℕ)
    (remaining : List Player) (hnd : remaining.Nodup) :
    (get_best pos count remaining).1.Nodup := by
  rw [get_best_fst]
  exact (List.take_sublist _ _).nodup
    ((List.perm_insertionSort valueGe _).nodup_iff.mpr (hnd.filter _))

lemma foldl_erase_eq_filter :
    ∀ (sel : List Player) (r : List Player), r.Nodup →
      sel.foldl (fun acc p => acc.erase p) r =
        r.filter (fun x => !(sel.contains x))
  | [], r, _ => by simp
  | s :: ss, r, hnd => by
    rw [List.foldl_cons]
    rw [foldl_erase_eq_filter ss (r.erase s) (hnd.erase s)]
    rw [List.Nodup.erase_eq_filter hnd]
    rw [List.filter_filter]
    apply List.filter_congr
    intro x _
    by_cases h1 : x = s
    · subst h1
      simp
    · simp [h1, Ne.symm h1]

lemma get_best_snd (pos : String) (count : ℕ) (remaining : List Player)
    (hnd : remaining.Nodup) :
    (get_best pos count remaining).2 =
      remaining.filter
        (fun x => !((get_best pos count remaining).1.contains x)) := by
  show ((get_best pos count remaining).1.foldl
    (fun acc p => acc.erase p) remaining) = _
  exact foldl_erase_eq_filter _ remaining hnd

lemma get_best_snd_sublist (pos : String) (count : ℕ)
    (remaining : List Player) (hnd : remaining.Nodup) :
    List.Sublist (get_best pos count remaining).2 remaining := by
  rw [get_best_snd pos count remaining hnd]
  exact List.filter_sublist _

lemma get_best_snd_not_sel (pos : String) (count : ℕ)
    (remaining : List Player) (hnd : remaining.Nodup) :
    ∀ x ∈ (get_best pos count remaining).2,
      x ∉ (get_best pos count remaining).1 := by
  rw [get_best_snd pos count remaining hnd]
  intro x hx
  have := List.of_mem_filter hx
  simpa using this

lemma get_best_pair (pos : String) (count : ℕ) (remaining : List Player)
    (hnd : remaining.Nodup) {p q : Player}
    (hpair : List.Sublist [p, q] remaining)
    (hnp : p ∉ (get_best pos count remaining).1)
    (hnq : q ∉ (get_best pos count remaining).1) :
    List.Sublist [p, q] (get_best pos count remaining).2 := by
  rw [get_best_snd pos count remaining hnd]
  have heq : [p, q].filter
      (fun x => !((get_best pos count remaining).1.contains x)) = [p, q] := by
    simp [hnp, hnq]
  rw [← heq]
  exact List.Sublist.filter _ hpair

lemma get_best_tie (pos : String) (count : ℕ) (remaining : List Player)
    (hnd : remaining.Nodup) {p q : Player}
    (hpair : List.Sublist [p, q] remaining)
    (hpos : p.position = q.position) (hval : pyValue p = pyValue q)
    (hq : q ∈ (get_best pos count remaining).1) :
    p ∈ (get_best pos count remaining).1 := by
  have hqpos : q.position = pos := get_best_fst_position pos count remaining q hq
  have hfil : [p, q].filter (fun x => x.position == pos) = [p, q] := by
    simp [hpos, hqpos]
  have hpairf : List.Sublist [p, q]
      (remaining.filter (fun x => x.position == pos)) := by
    rw [← hfil]
    exact List.Sublist.filter _ hpair
  have hstable : List.Sublist [p, q] (List.insertionSort valueGe
      (remaining.filter (fun x => x.position == pos))) :=
    List.pair_sublist_insertionSort (le_of_eq hval.symm) hpairf
  have hndf : (List.insertionSort valueGe
      (remaining.filter (fun x => x.position == pos))).Nodup :=
    (List.perm_insertionSort valueGe _).nodup_iff.mpr (hnd.filter _)
  rw [get_best_fst] at hq ⊢
  exact take_pair_stable _ count hndf hstable hq

lemma foldl_max_mono :
    ∀ (xs : List Player) (b : Player),
      pyValue b ≤ pyValue (xs.foldl
        (fun best y => if pyValue best < pyValue y then y else best) b)
  | [], _ => le_rfl
  | y :: ys, b => by
    rw [List.foldl_cons]
    refine le_trans ?_ (foldl_max_mono ys _)
    split
    · exact le_of_lt (by assumption)
    · exact le_rfl

lemma foldl_max_mem :
    ∀ (xs : List Player) (b : Player),
      (xs.foldl (fun best y => if pyValue best < pyValue y then y else best)
        b) = b ∨
      (xs.foldl (fun best y => if pyValue best < pyValue y then y else best)
        b) ∈ xs
  | [], _ => Or.inl rfl
  | y :: ys, b => by
    rw [List.foldl_cons]
    rcases foldl_max_mem ys (if pyValue b < pyValue y then y else b) with
      h | h
    · rw [h]
      split
      · exact Or.inr (List.mem_cons_self _ _)
      · exact Or.inl rfl
    · exact Or.inr (List.mem_cons_of_mem _ h)

lemma foldl_max_ne_after {q : Player} :
    ∀ (l2 : List Player) (b : Player) (l3 : List Player),
      pyValue q ≤ pyValue b → q ≠ b → q ∉ l2 → q ∉ l3 →
      ((l2 ++ q :: l3).foldl
        (fun best y => if pyValue best < pyValue y then y else best) b) ≠ q
  | [], b, l3, hval, hqb, _, hq3 => by
    rw [List.nil_append, List.foldl_cons]
    have hstep : (if pyValue b < pyValue q then q else b) = b :=
      if_neg (not_lt.mpr hval)
    rw [hstep]
    intro heq
    rcases foldl_max_mem l3 b with h | h
    · rw [heq] at h; exact hqb h
    · rw [heq] at h; exact hq3 h
  | y :: ys, b, l3, hval, hqb, hq2, hq3 => by
    rw [List.cons_append, List.foldl_cons]
    have hq2' : q ∉ ys := fun h => hq2 (List.mem_cons_of_mem _ h)
    have hqy : q ≠ y := fun h => hq2 (h ▸ List.mem_cons_self _ _)
    apply foldl_max_ne_after ys _ l3 ?_ ?_ hq2' hq3
    · refine le_trans hval ?_
      split
      · exact le_of_lt (by assumption)
      · exact le_rfl
    · split
      · exact hqy
      · exact hqb

lemma foldl_max_ne_before {p q : Player} (hval : pyValue p = pyValue q) :
    ∀ (l1 : List Player) (b : Player) (l2 l3 : List Player),
      q ∉ l1 → q ≠ b → q ≠ p → q ∉ l2 → q ∉ l3 →
      ((l1 ++ (p :: (l2 ++ (q :: l3)))).foldl
        (fun best y => if pyValue best < pyValue y then y else best) b) ≠ q
  | [], b, l2, l3, _, hqb, hqp, hq2, hq3 => by
    rw [List.nil_append, List.foldl_cons]
    apply foldl_max_ne_after l2 _ l3 ?_ ?_ hq2 hq3
    · split
      · exact le_of_eq hval.symm
      · next h => exact le_trans (le_of_eq hval.symm) (not_lt.mp h)
    · split
      · exact hqp
      · exact hqb
  | y :: ys, b, l2, l3, hq1, hqb, hqp, hq2, hq3 => by
    rw [List.cons_append, List.foldl_cons]
    have hq1' : q ∉ ys := fun h => hq1 (List.mem_cons_of_mem _ h)
    have hqy : q ≠ y := fun h => hq1 (h ▸ List.mem_cons_self _ _)
    apply foldl_max_ne_before hval ys _ l2 l3 hq1' ?_ hqp hq2 hq3
    split
    · exact hqy
    · exact hqb

lemma pythonMax_mem {l : List Player} {m : Player}
    (h : pythonMaxByValue l = some m) : m ∈ l := by
  cases l with
  | nil => exact absurd h (by simp [pythonMaxByValue])
  | cons x xs =>
    have hm : (xs.foldl
        (fun best y => if pyValue best < pyValue y then y else best) x) =
        m := by
      have := h
      unfold pythonMaxByValue at this
      exact Option.some.inj this
    rcases foldl_max_mem xs x with h1 | h1
    · rw [hm] at h1; exact h1 ▸ List.mem_cons_self _ _
    · rw [hm] at h1; exact List.mem_cons_of_mem _ h1

lemma pythonMax_ne_tie {p q : Player} (hval : pyValue p = pyValue q)
    (hne : p ≠ q) (l : List Player) (hnd : l.Nodup)
    (hpair : List.Sublist [p, q] l) : pythonMaxByValue l ≠ some q := by
  obtain ⟨l1, l2, l3, rfl⟩ := pair_sublist_decomp l hpair
  have hnd1 := hnd
  rw [List.nodup_append] at hnd1
  have hrest := hnd1.2.1
  rw [List.nodup_cons] at hrest
  have hmid := hrest.2
  rw [List.nodup_append] at hmid
  have hql3 : q ∉ l3 := by
    have := hmid.2.1
    rw [List.nodup_cons] at this
    exact this.1
  have hql2 : q ∉ l2 := fun h =>
    (hmid.2.2 h) (List.mem_cons_self _ _)
  have hqp : q ≠ p := fun h => hne h.symm
  have hql1 : q ∉ l1 := fun h =>
    (hnd1.2.2 h) (List.mem_cons_of_mem _
      (List.mem_append_right _ (List.mem_cons_self _ _)))
  cases l1 with
  | nil =>
    rw [List.nil_append]
    intro heq
    have hinj := Option.some.inj (by
      unfold pythonMaxByValue at heq
      exact heq)
    exact foldl_max_ne_after l2 p l3 (le_of_eq hval.symm) hqp hql2 hql3 hinj
  | cons y l1' =>
    rw [List.cons_append]
    intro heq
    have hinj := Option.some.inj (by
      unfold pythonMaxByValue at heq
      exact heq)
    have hql1' : q ∉ l1' := fun h => hql1 (List.mem_cons_of_mem _ h)
    have hqy : q ≠ y := fun h => hql1 (h ▸ List.mem_cons_self _ _)
    exact foldl_max_ne_before hval l1' y l2 l3 hql1' hqy hqp hql2 hql3 hinj

lemma get_best_cover (pos : String) (count : ℕ) (remaining : List Player)
    (hnd : remaining.Nodup) :
    ∀ x ∈ remaining, x ∈ (get_best pos count remaining).1 ∨
      x ∈ (get_best pos count remaining).2 := by
  intro x hx
  by_cases h : x ∈ (get_best pos count remaining).1
  · exact Or.inl h
  · right
    rw [get_best_snd pos count remaining hnd]
    exact List.mem_filter.mpr ⟨hx, by simpa using h⟩

lemma get_optimal_lineup_decomp (roster : List Player) :
    (get_optimal_lineup roster = (applySlots standardSlots roster).1 ∧
      pythonMaxByValue
        ((applySlots standardSlots roster).2.filter flexEligible) = none) ∨
    (∃ f, get_optimal_lineup roster =
        (applySlots standardSlots roster).1 ++ [f] ∧
      pythonMaxByValue
        ((applySlots standardSlots roster).2.filter flexEligible) =
          some f) := by
  have hchain : (get_best "D/ST" 1 (get_best "K" 1 (get_best "TE" 1
      (get_best "WR" 2 (get_best "RB" 2
        (get_best "QB" 1 roster).2).2).2).2).2).2 =
      (applySlots standardSlots roster).2 := by
    simp [applySlots, standardSlots]
  have hcore : (get_best "QB" 1 roster).1 ++
      (get_best "RB" 2 (get_best "QB" 1 roster).2).1 ++
      (get_best "WR" 2 (get_best "RB" 2 (get_best "QB" 1 roster).2).2).1 ++
      (get_best "TE" 1 (get_best "WR" 2 (get_best "RB" 2
        (get_best "QB" 1 roster).2).2).2).1 ++
      (get_best "K" 1 (get_best "TE" 1 (get_best "WR" 2 (get_best "RB" 2
        (get_best "QB" 1 roster).2).2).2).2).1 ++
      (get_best "D/ST" 1 (get_best "K" 1 (get_best "TE" 1 (get_best "WR" 2
        (get_best "RB" 2 (get_best "QB" 1 roster).2).2).2).2).2).1 =
      (applySlots standardSlots roster).1 := by
    show _ = (applySlots standardSlots roster).1
    simp [applySlots, standardSlots, List.append_assoc]
  cases h : pythonMaxByValue
      ((applySlots standardSlots roster).2.filter flexEligible) with
  | none =>
    left
    refine ⟨?_, rfl⟩
    simp only [get_optimal_lineup]
    rw [hchain, h, hcore]
  | some f =>
    right
    refine ⟨f, ?_, rfl⟩
    simp only [get_optimal_lineup]
    rw [hchain, h]
    simp only []
    rw [hcore]

lemma applySlots_spec :
    ∀ (slots : List (String × ℕ)) (rem : List Player), rem.Nodup →
      (∀ p ∈ (applySlots slots rem).1, p ∈ rem) ∧
      (applySlots slots rem).1.Nodup ∧
      List.Sublist (applySlots slots rem).2 rem ∧
      (∀ x ∈ (applySlots slots rem).2, x ∉ (applySlots slots rem).1) ∧
      (∀ x ∈ rem, x ∈ (applySlots slots rem).1 ∨
        x ∈ (applySlots slots rem).2) ∧
      (∀ p q : Player, p.position = q.position → pyValue p = pyValue q →
        List.Sublist [p, q] rem → q ∈ (applySlots slots rem).1 →
        p ∈ (applySlots slots rem).1) ∧
      (∀ p q : Player, List.Sublist [p, q] rem →
        p ∉ (applySlots slots rem).1 → q ∉ (applySlots slots rem).1 →
        List.Sublist [p, q] (applySlots slots rem).2)
  | [], rem, _ =>
    ⟨fun p hp => absurd hp (List.not_mem_nil p),
      List.nodup_nil,
      List.Sublist.refl rem,
      fun x _ => List.not_mem_nil x,
      fun x hx => Or.inr hx,
      fun _ q _ _ _ hq => absurd hq (List.not_mem_nil q),
      fun _ _ hpq _ _ => hpq⟩
  | (pos, c) :: rest, rem, hnd => by
    have hndS2 : (get_best pos c rem).2.Nodup :=
      (get_best_snd_sublist pos c rem hnd).nodup hnd
    obtain ⟨ih1, ih2, ih3, ih4, ih5, ih6, ih7⟩ :=
      applySlots_spec rest (get_best pos c rem).2 hndS2
    have happ : applySlots ((pos, c) :: rest) rem =
        ((get_best pos c rem).1 ++
          (applySlots rest (get_best pos c rem).2).1,
          (applySlots rest (get_best pos c rem).2).2) := rfl
    rw [happ]
    have hsub1 : ∀ p ∈ (applySlots rest (get_best pos c rem).2).1,
        p ∈ rem := fun p hp =>
      (get_best_snd_sublist pos c rem hnd).subset (ih1 p hp)
    refine ⟨?_, ?_, ?_, ?_, ?_, ?_, ?_⟩
    · intro p hp
      rcases List.mem_append.mp hp with h | h
      · exact get_best_fst_subset pos c rem p h
      · exact hsub1 p h
    · rw [List.nodup_append]
      refine ⟨get_best_fst_nodup pos c rem hnd, ih2, ?_⟩
      intro x hx hx2
      exact get_best_snd_not_sel pos c rem hnd x (ih1 x hx2) hx
    · exact ih3.trans (get_best_snd_sublist pos c rem hnd)
    · intro x hx
      rw [List.mem_append]
      push_neg
      constructor
      · exact get_best_snd_not_sel pos c rem hnd x (ih3.subset hx)
      · exact ih4 x hx
    · intro x hx
      rcases get_best_cover pos c rem hnd x hx with h | h
      · exact Or.inl (List.mem_append.mpr (Or.inl h))
      · rcases ih5 x h with h2 | h2
        · exact Or.inl (List.mem_append.mpr (Or.inr h2))
        · exact Or.inr h2
    · intro p q hpos hval hpair hq
      rcases List.mem_append.mp hq with hq1 | hq1
      · exact List.mem_append.mpr
          (Or.inl (get_best_tie pos c rem hnd hpair hpos hval hq1))
      · by_cases hp : p ∈ (get_best pos c rem).1
        · exact List.mem_append.mpr (Or.inl hp)
        · have hqn : q ∉ (get_best pos c rem).1 :=
            get_best_snd_not_sel pos c rem hnd q (ih1 q hq1)
          have hpair2 := get_best_pair pos c rem hnd hpair hp hqn
          exact List.mem_append.mpr (Or.inr (ih6 p q hpos hval hpair2 hq1))
    · intro p q hpair hp hq
      rw [List.mem_append] at hp hq
      push_neg at hp hq
      have hpair2 := get_best_pair pos c rem hnd hpair hp.1 hq.1
      exact ih7 p q hpair2 hp.2 hq.2

/-- C9: on a duplicate-free roster the optimal lineup consists of distinct
players drawn from the roster, split into at most 1 QB, 2 RB, 2 WR, 1 TE,
1 K, 1 D/ST and at most one flex from {RB, WR, TE} (a slot short of
eligible players is simply left shorter, the function is total); and ties
in projected value between same-position players are broken in favour of
the player earlier in the roster order: whenever the later of two
equal-valued same-position players is selected, so is the earlier. -/
theorem c9_optimal_lineup (roster : List Player) (hnd : roster.Nodup) :
    (∀ p ∈ get_optimal_lineup roster, p ∈ roster) ∧
    (get_optimal_lineup roster).Nodup ∧
    (∃ qb rb wr te ks ds fl,
      get_optimal_lineup roster =
        qb ++ (rb ++ (wr ++ (te ++ (ks ++ (ds ++ fl))))) ∧
      qb.length ≤ 1 ∧ (∀ p ∈ qb, p.position = "QB") ∧
      rb.length ≤ 2 ∧ (∀ p ∈ rb, p.position = "RB") ∧
      wr.length ≤ 2 ∧ (∀ p ∈ wr, p.position = "WR") ∧
      te.length ≤ 1 ∧ (∀ p ∈ te, p.position = "TE") ∧
      ks.length ≤ 1 ∧ (∀ p ∈ ks, p.position = "K") ∧
      ds.length ≤ 1 ∧ (∀ p ∈ ds, p.position = "D/ST") ∧
      fl.length ≤ 1 ∧ (∀ p ∈ fl, p.position = "RB" ∨ p.position = "WR" ∨
        p.position = "TE")) ∧
    (∀ p q : Player, p.position = q.position → pyValue p = pyValue q →
      List.Sublist [p, q] roster → q ∈ get_optimal_lineup roster →
      p ∈ get_optimal_lineup roster) := by
  obtain ⟨sp1, sp2, sp3, sp4, sp5, sp6, sp7⟩ :=
    applySlots_spec standardSlots roster hnd
  have hndr6 : (applySlots standardSlots roster).2.Nodup := sp3.nodup hnd
  have hflexmem : ∀ f, pythonMaxByValue
      ((applySlots standardSlots roster).2.filter flexEligible) = some f →
      f ∈ (applySlots standardSlots roster).2 ∧ flexEligible f = true := by
    intro f hf
    have h1 := pythonMax_mem hf
    exact ⟨List.mem_of_mem_filter h1, List.of_mem_filter h1⟩
  have hcorefacts :
      (∀ p ∈ get_optimal_lineup roster, p ∈ roster) ∧
      (get_optimal_lineup roster).Nodup := by
    rcases get_optimal_lineup_decomp roster with ⟨heq, _⟩ | ⟨f, heq, hf⟩
    · rw [heq]
      exact ⟨sp1, sp2⟩
    · obtain ⟨hfr6, _⟩ := hflexmem f hf
      rw [heq]
      constructor
      · intro p hp
        rcases List.mem_append.mp hp with h | h
        · exact sp1 p h
        · rw [List.mem_singleton] at h
          exact sp3.subset (h ▸ hfr6)
      · rw [List.nodup_append]
        refine ⟨sp2, List.nodup_singleton f, ?_⟩
        intro x hx hx2
        rw [List.mem_singleton] at hx2
        exact sp4 f hfr6 (hx2 ▸ hx)
  refine ⟨hcorefacts.1, hcorefacts.2, ?_, ?_⟩
  · -- structural decomposition into the slot segments
    rcases get_optimal_lineup_decomp roster with ⟨heq, _⟩ | ⟨f, heq, hf⟩ <;>
      [refine ⟨(get_best "QB" 1 roster).1,
        (get_best "RB" 2 (get_best "QB" 1 roster).2).1,
        (get_best "WR" 2 (get_best "RB" 2 (get_best "QB" 1
          roster).2).2).1,
        (get_best "TE" 1 (get_best "WR" 2 (get_best "RB" 2 (get_best "QB" 1
          roster).2).2).2).1,
        (get_best "K" 1 (get_best "TE" 1 (get_best "WR" 2 (get_best "RB" 2
          (get_best "QB" 1 roster).2).2).2).2).1,
        (get_best "D/ST" 1 (get_best "K" 1 (get_best "TE" 1 (get_best "WR" 2
          (get_best "RB" 2 (get_best "QB" 1 roster).2).2).2).2).2).1,
        ([] : List Player), ?_, ?_, ?_, ?_, ?_, ?_, ?_, ?_, ?_, ?_, ?_, ?_,
        ?_, ?_, ?_⟩;
       refine ⟨(get_best "QB" 1 roster).1,
        (get_best "RB" 2 (get_best "QB" 1 roster).2).1,
        (get_best "WR" 2 (get_best "RB" 2 (get_best "QB" 1
          roster).2).2).1,
        (get_best "TE" 1 (get_best "WR" 2 (get_best "RB" 2 (get_best "QB" 1
          roster).2).2).2).1,
        (get_best "K" 1 (get_best "TE" 1 (get_best "WR" 2 (get_best "RB" 2
          (get_best "QB" 1 roster).2).2).2).2).1,
        (get_best "D/ST" 1 (get_best "K" 1 (get_best "TE" 1 (get_best "WR" 2
          (get_best "RB" 2 (get_best "QB" 1 roster).2).2).2).2).2).1,
        [f], ?_, ?_, ?_, ?_, ?_, ?_, ?_, ?_, ?_, ?_, ?_, ?_, ?_, ?_,
        ?_⟩] <;>
      first
      | (rw [heq]
         simp [applySlots, standardSlots, List.append_assoc])
      | exact get_best_fst_length _ _ _
      | exact get_best_fst_position _ _ _
      | (intro p hp
         rw [List.mem_singleton] at hp
         subst hp
         have hb := (hflexmem p hf).2
         simp only [flexEligible, Bool.or_eq_true, beq_iff_eq] at hb
         rw [or_assoc] at hb
         exact hb)
      | simp
  · -- tie-breaking
    intro p q hpos hval hpair hq
    rcases get_optimal_lineup_decomp roster with ⟨heq, _⟩ | ⟨f, heq, hf⟩
    · rw [heq] at hq ⊢
      exact sp6 p q hpos hval hpair hq
    · obtain ⟨hfr6, hfel⟩ := hflexmem f hf
      rw [heq] at hq ⊢
      rcases List.mem_append.mp hq with hq1 | hq1
      · exact List.mem_append.mpr (Or.inl (sp6 p q hpos hval hpair hq1))
      · rw [List.mem_singleton] at hq1
        subst hq1
        by_cases hp : p ∈ (applySlots standardSlots roster).1
        · exact List.mem_append.mpr (Or.inl hp)
        · by_cases hpq : p = q
          · subst hpq
            exact List.mem_append.mpr (Or.inr (List.mem_singleton.mpr rfl))
          · exfalso
            have hqc : q ∉ (applySlots standardSlots roster).1 :=
              sp4 q hfr6
            have hpair6 := sp7 p q hpair hp hqc
            have hfelp : flexEligible p = true := by
              have := hfel
              simp only [flexEligible] at this ⊢
              rw [hpos]
              exact this
            have hfilter : [p, q].filter flexEligible = [p, q] := by
              simp [hfelp, hfel]
            have hpairf : List.Sublist [p, q]
                (((applySlots standardSlots roster).2).filter
                  flexEligible) := by
              rw [← hfilter]
              exact List.Sublist.filter _ hpair6
            exact pythonMax_ne_tie hval hpq _ (hndr6.filter _) hpairf hf

/-- Witness for C9 on four equal-valued RBs: the optimizer keeps the first
two for the RB slots and the third for flex (stable tie-breaking by roster
order), and the tie-break conclusion applied to the selected third RB and
the earlier first RB puts the first RB in the lineup. -/
theorem c9_optimal_lineup_witness :
    ([mkPlayer 1 "RB" none 5 5 none, mkPlayer 2 "RB" none 5 5 none,
      mkPlayer 3 "RB" none 5 5 none, mkPlayer 4 "RB" none 5 5 none].Nodup) ∧
    get_optimal_lineup
      [mkPlayer 1 "RB" none 5 5 none, mkPlayer 2 "RB" none 5 5 none,
       mkPlayer 3 "RB" none 5 5 none, mkPlayer 4 "RB" none 5 5 none] =
      [mkPlayer 1 "RB" none 5 5 none, mkPlayer 2 "RB" none 5 5 none,
       mkPlayer 3 "RB" none 5 5 none] ∧
    mkPlayer 1 "RB" none 5 5 none ∈ get_optimal_lineup
      [mkPlayer 1 "RB" none 5 5 none, mkPlayer 2 "RB" none 5 5 none,
       mkPlayer 3 "RB" none 5 5 none, mkPlayer 4 "RB" none 5 5 none] := by
  have hnd : [mkPlayer 1 "RB" none 5 5 none, mkPlayer 2 "RB" none 5 5 none,
      mkPlayer 3 "RB" none 5 5 none,
      mkPlayer 4 "RB" none 5 5 none].Nodup := by
    norm_num [mkPlayer, Player.mk.injEq]
  have hlineup : get_optimal_lineup
      [mkPlayer 1 "RB" none 5 5 none, mkPlayer 2 "RB" none 5 5 none,
       mkPlayer 3 "RB" none 5 5 none, mkPlayer 4 "RB" none 5 5 none] =
      [mkPlayer 1 "RB" none 5 5 none, mkPlayer 2 "RB" none 5 5 none,
       mkPlayer 3 "RB" none 5 5 none] := by
    norm_num [get_optimal_lineup, get_best, pythonMaxByValue, flexEligible,
      valueGe, pyValue, mkPlayer, List.insertionSort, List.orderedInsert,
      List.erase_cons, beq_iff_eq, Player.mk.injEq]
  have hsub : List.Sublist
      [mkPlayer 1 "RB" none 5 5 none, mkPlayer 3 "RB" none 5 5 none]
      [mkPlayer 1 "RB" none 5 5 none, mkPlayer 2 "RB" none 5 5 none,
       mkPlayer 3 "RB" none 5 5 none, mkPlayer 4 "RB" none 5 5 none] :=
    List.Sublist.cons₂ _ (List.Sublist.cons _ (List.Sublist.cons₂ _
      (List.nil_sublist [mkPlayer 4 "RB" none 5 5 none])))
  have hq : mkPlayer 3 "RB" none 5 5 none ∈ get_optimal_lineup
      [mkPlayer 1 "RB" none 5 5 none, mkPlayer 2 "RB" none 5 5 none,
       mkPlayer 3 "RB" none 5 5 none, mkPlayer 4 "RB" none 5 5 none] := by
    rw [hlineup]
    exact List.mem_cons_of_mem _ (List.mem_cons_of_mem _
      (List.mem_cons_self _ _))
  exact ⟨hnd, hlineup,
    (c9_optimal_lineup _ hnd).2.2.2 (mkPlayer 1 "RB" none 5 5 none)
      (mkPlayer 3 "RB" none 5 5 none) rfl rfl hsub hq⟩

end Espn
